import Mathlib

/-!
# Verification of the fluster test orchestrator (src/fluster/fluster.py)

A shallow embedding of the fluster conformance-test orchestrator.  The
embedding follows `src/fluster/fluster.py` and `src/fluster/codec.py`:

* `Codec` mirrors the `Codec` enum of codec.py.
* `Decoder`, `TestSuite`, `TestVector` mirror the registry and catalogue
  objects consumed by fluster.py (their own modules are external
  collaborators; only the fields fluster.py reads are modelled).
* `Context` mirrors the `Context` class of fluster.py.  Python attributes
  are dynamic: `ctx.test_suites` starts as an optional list of name strings
  and `_normalize_context` overwrites it with a list of resolved `TestSuite`
  objects, so the field is a sum (`SuitesField`); the `test_suite`
  attribute added by the `for ctx.test_suite in ...` loop is an `Option`
  that is `none` while the attribute is absent.
* `get_run_param`, `normalize_context`, `run_test_suites`,
  `generate_summary`, `load_test_suites` and `download_test_suites` embed
  the corresponding methods of the `Fluster` class.  Decoding itself
  (`TestSuite.run` in test_suite.py) is abstracted by an `oracle`
  parameter; `sys.exit(1)` and raised exceptions become `RunOutcome`
  values, and the sequence of (suite, decoder) pairs actually handed to
  `TestSuite.run` is recorded as an execution trace.
-/

set_option linter.dupNamespace false

namespace Fluster

/-- The `Codec` enum from codec.py. -/
inductive Codec
  | Dummy
  | H264
  | H265
  | VP8
deriving DecidableEq

/-- A test vector as seen by fluster.py: its name and, on a run result,
the list of error messages attached to it (`test_vector.errors`). -/
structure TestVector where
  name : String
  errors : List String
deriving DecidableEq

/-- A decoder registry entry: fluster.py reads `decoder.name` and
`decoder.codec`. -/
structure Decoder where
  name : String
  codec : Codec
deriving DecidableEq

/-- A catalogue test suite: fluster.py reads `test_suite.name`,
`test_suite.codec` and `test_suite.test_vectors` (a dict with unique
keys, modelled as a list of vectors in insertion order). -/
structure TestSuite where
  name : String
  codec : Codec
  test_vectors : List TestVector
deriving DecidableEq

/-- The object returned by `TestSuite.run`: a suite result carrying the
vectors with their run errors.  fluster.py reads `.name`,
`.test_vectors` and `.test_vectors_success`. -/
structure SuiteRunResult where
  name : String
  test_vectors : List TestVector
deriving DecidableEq

/-- Modelled from the spec: `test_vectors_success` is an attribute
maintained by test_suite.py, which is absent from src/.  The spec calls
it "a derived success count" (§3, SuiteRunResult), i.e. the number of
vectors of the result that carry zero errors. -/
def SuiteRunResult.test_vectors_success (r : SuiteRunResult) : Nat :=
  (r.test_vectors.filter (fun v => v.errors.isEmpty)).length

/-- Dict lookup `test_vectors[name]` on a result's vector map. -/
def lookupVector (l : List TestVector) (n : String) : Option TestVector :=
  l.find? (fun v => v.name = n)

/-- The `ctx.test_suites` attribute: a filter of name strings before
`_normalize_context`, a list of resolved suites after it. -/
inductive SuitesField
  | names : Option (List String) → SuitesField
  | objs : List TestSuite → SuitesField
deriving DecidableEq

/-- The `ctx.decoders` attribute: a filter of name strings before
`_normalize_context`, a list of resolved decoders after it. -/
inductive DecodersField
  | names : Option (List String) → DecodersField
  | objs : List Decoder → DecodersField
deriving DecidableEq

/-- The `Context` class of fluster.py.  `test_suite := none` models the
absence of the `test_suite` attribute, which only comes into existence
when `run_test_suites` iterates `for ctx.test_suite in ctx.test_suites`. -/
structure Context where
  jobs : Nat
  timeout : Nat
  test_suites : SuitesField
  decoders : DecodersField
  test_vectors : Option (List String)
  failfast : Bool
  quiet : Bool
  reference : Bool
  summary : Bool
  keep_files : Bool
  test_suite : Option TestSuite := none
deriving DecidableEq

/-- The `Fluster` instance state read by the run path: the loaded suite
catalogue (`self.test_suites`) and the decoder registry
(`self.decoders = DECODERS`). -/
structure Fluster where
  test_suites : List TestSuite
  decoders : List Decoder
deriving DecidableEq

/-- Exceptions raised by fluster.py, carrying the data interpolated into
their messages. -/
inductive FlusterError
  | noMatch (what : String) (filt : List String)
  | refDecoders (names : List String)
  | attributeError
deriving DecidableEq

/-- Concatenation of a list of strings, as produced by Python `+=` in a
loop. -/
def strJoin : List String → String
  | [] => ""
  | s :: ss => s ++ strJoin ss

/-- Intercalation in the style of `sep.join`, used to phrase rendered output. -/
def strIntercalate (sep : String) : List String → String
  | [] => ""
  | [x] => x
  | x :: y :: xs => x ++ sep ++ strIntercalate sep (y :: xs)

/-- Python `repr` of a list of strings, as an f-string interpolates it. -/
def pyListRepr (l : List String) : String :=
  "[" ++ strIntercalate ", " (l.map (fun x => "\x27" ++ x ++ "\x27")) ++ "]"

/-- The message of each exception, mirroring the f-strings of
fluster.py (`attributeError` is the modelling artefact for calling
`_normalize_context` on an already-normalized context, where Python
itself would raise an `AttributeError`). -/
def FlusterError.message : FlusterError → String
  | .noMatch what filt => "No " ++ what ++ " found matching " ++ pyListRepr filt
  | .refDecoders names =>
      "Only one decoder can be the reference. Given: " ++ strIntercalate ", " names
  | .attributeError => "AttributeError"

/-- Python truthiness of an optional list (`if in_list:`): `None` and
the empty list are falsy. -/
def optTruthy : Option (List String) → Bool
  | none => false
  | some l => !l.isEmpty

/-- Python `str.lower()` (String.toLower itself is defined by
well-founded recursion, which the kernel cannot evaluate; this
character-list form computes). -/
def strToLower (s : String) : String :=
  String.mk (s.toList.map Char.toLower)

/-- The comprehension `[x.lower() for x in l]` applied under an optional. -/
def optLower (o : Option (List String)) : Option (List String) :=
  o.map (List.map strToLower)

/-- Embedding of `Fluster._get_run_param`: filter `check_list` down to the entries
whose lowercased name occurs in `in_list`; an empty filter result with a
truthy `in_list` raises; a falsy `in_list` selects everything. -/
def get_run_param (in_list : Option (List String)) (check_list : List α)
    (nameOf : α → String) (what : String) : Except FlusterError (List α) :=
  if optTruthy in_list then
    let l := in_list.getD []
    let run := check_list.filter (fun x => l.contains (strToLower (nameOf x)))
    if run.isEmpty then .error (.noMatch what l) else .ok run
  else
    .ok check_list

/-- Embedding of `Fluster._normalize_context`: lowercase the three filters, then
resolve the suite filter and the decoder filter through
`_get_run_param`, rewriting the context's fields in place.  On a
context whose list fields already hold objects Python would raise an
`AttributeError` at `x.lower()`. -/
def normalize_context (fl : Fluster) (ctx : Context) : Except FlusterError Context :=
  match ctx.test_suites, ctx.decoders with
  | .names tsn, .names dcn =>
    let tsn := optLower tsn
    let dcn := optLower dcn
    let tvn := optLower ctx.test_vectors
    match get_run_param tsn fl.test_suites TestSuite.name "test suite" with
    | .error e => .error e
    | .ok rs =>
      match get_run_param dcn fl.decoders Decoder.name "decoders" with
      | .error e => .error e
      | .ok rd =>
        .ok { ctx with
                test_suites := .objs rs
                decoders := .objs rd
                test_vectors := tvn }
  | _, _ => .error .attributeError

/-- How a call to `run_test_suites` ends: a raised exception, a
`sys.exit(code)`, or a normal return. -/
inductive RunOutcome
  | raised (e : FlusterError)
  | exited (code : Nat)
  | finished
deriving DecidableEq

/-- Whether the outcome is a raised exception. -/
def RunOutcome.isRaised : RunOutcome → Bool
  | .raised _ => true
  | _ => false

/-- Whether the outcome is the reference-mode configuration error. -/
def RunOutcome.isRefError : RunOutcome → Bool
  | .raised (.refDecoders _) => true
  | _ => false

/-- Modelled from the spec: whether the vector-name filter, applied to
one suite, selects nothing.  `TestSuite.run` lives in test_suite.py,
which is absent from src/; per spec §4.2/§4.3 the effective vector set
is the suite's vectors intersected with the case-insensitive vector
filter, and a filter matching nothing fails before the decoder is
invoked. -/
def vfilterEmpty (s : TestSuite) (tv : Option (List String)) : Bool :=
  optTruthy tv &&
    (s.test_vectors.filter (fun v => (tv.getD []).contains (strToLower v.name))).isEmpty

/-- Modelled from the spec: `TestSuite.run` (test_suite.py, absent from
src/).  A truthy vector filter that matches none of the suite's vectors
fails with a configuration error naming the filter, before the decoder
is invoked; otherwise the decoder runs and the suite result (or `None`)
comes back, abstracted here by `oracle`. -/
def suiteRunM (oracle : TestSuite → Decoder → Option SuiteRunResult)
    (s : TestSuite) (d : Decoder) (tv : Option (List String)) :
    Except FlusterError (Option SuiteRunResult) :=
  if vfilterEmpty s tv then .error (.noMatch "test vectors" (tv.getD []))
  else .ok (oracle s d)

/-- Whether the result `oracle` yields for a pair contains a vector with
errors (the `success` check of the inner loop of `run_test_suites`);
a falsy (`None`) result is skipped by `if test_suite_res:` and counts
as no failure. -/
def pairFails (oracle : TestSuite → Decoder → Option SuiteRunResult)
    (p : TestSuite × Decoder) : Bool :=
  match oracle p.1 p.2 with
  | some r => r.test_vectors.any (fun v => !v.errors.isEmpty)
  | none => false

/-- Result of the inner decoder loop of `run_test_suites` for one suite:
the (suite, decoder) pairs handed to `TestSuite.run`, the `error` flag,
and an early stop (exception or `sys.exit`) if one occurred. -/
structure DecLoopRes where
  trace : List (TestSuite × Decoder)
  err : Bool
  stop : Option RunOutcome
deriving DecidableEq

/-- The inner loop `for decoder in ctx.decoders` of `run_test_suites`:
skip decoders of the wrong codec, run the suite against each remaining
decoder, and on a failing result either `sys.exit(1)` (failfast) or set
the `error` flag and continue. -/
def runDecLoop (oracle : TestSuite → Decoder → Option SuiteRunResult) (ff : Bool)
    (tv : Option (List String)) (s : TestSuite) :
    List Decoder → Bool → DecLoopRes
  | [], err => ⟨[], err, none⟩
  | d :: ds, err =>
    if d.codec ≠ s.codec then runDecLoop oracle ff tv s ds err
    else
      match suiteRunM oracle s d tv with
      | .error e => ⟨[], err, some (.raised e)⟩
      | .ok none =>
        let r := runDecLoop oracle ff tv s ds err
        ⟨(s, d) :: r.trace, r.err, r.stop⟩
      | .ok (some res) =>
        if res.test_vectors.any (fun v => !v.errors.isEmpty) then
          if ff then ⟨[(s, d)], err, some (.exited 1)⟩
          else
            let r := runDecLoop oracle ff tv s ds true
            ⟨(s, d) :: r.trace, r.err, r.stop⟩
        else
          let r := runDecLoop oracle ff tv s ds err
          ⟨(s, d) :: r.trace, r.err, r.stop⟩

/-- Result of the outer suite loop: the concatenated execution trace,
the `error` flag, an early stop if one occurred, and the last suite
assigned to `ctx.test_suite` by the `for` target. -/
structure SuiteLoopRes where
  trace : List (TestSuite × Decoder)
  err : Bool
  stop : Option RunOutcome
  last : Option TestSuite
deriving DecidableEq

/-- The outer loop `for ctx.test_suite in ctx.test_suites` of
`run_test_suites`. -/
def runSuiteLoop (oracle : TestSuite → Decoder → Option SuiteRunResult) (ff : Bool)
    (tv : Option (List String)) (decs : List Decoder) :
    List TestSuite → Bool → SuiteLoopRes
  | [], err => ⟨[], err, none, none⟩
  | s :: ss, err =>
    let r := runDecLoop oracle ff tv s decs err
    match r.stop with
    | some o => ⟨r.trace, r.err, some o, some s⟩
    | none =>
      let rest := runSuiteLoop oracle ff tv decs ss r.err
      ⟨r.trace ++ rest.trace, rest.err, rest.stop, some (rest.last.getD s)⟩

/-- The suites held by a context after normalization. -/
def Context.suitesOf (ctx : Context) : List TestSuite :=
  match ctx.test_suites with
  | .objs l => l
  | .names _ => []

/-- The decoders held by a context after normalization. -/
def Context.decsOf (ctx : Context) : List Decoder :=
  match ctx.decoders with
  | .objs l => l
  | .names _ => []

/-- What a call to `run_test_suites` produced: the execution trace, the
outcome, and the final state of the (mutated) context.  On an exception
raised inside `_normalize_context` the partially mutated context is not
observed by any claim and the original one is returned. -/
structure RunTrace where
  executed : List (TestSuite × Decoder)
  outcome : RunOutcome
  finalCtx : Context
deriving DecidableEq

/-- Embedding of `Fluster.run_test_suites`: normalize the context, enforce the
reference-mode single-decoder precondition, then run the suite × decoder
loop; `sys.exit(1)` fires immediately on a failing result under
failfast, or once at the end if the `error` flag was set. -/
def run_test_suites (fl : Fluster)
    (oracle : TestSuite → Decoder → Option SuiteRunResult) (ctx : Context) : RunTrace :=
  match normalize_context fl ctx with
  | .error e => ⟨[], .raised e, ctx⟩
  | .ok ctx1 =>
    let decs := ctx1.decsOf
    let suites := ctx1.suitesOf
    if ctx1.reference && (decs.isEmpty || decs.length > 1) then
      ⟨[], .raised (.refDecoders (decs.map Decoder.name)), ctx1⟩
    else
      let sl := runSuiteLoop oracle ctx1.failfast ctx1.test_vectors decs suites false
      let ctx2 := { ctx1 with test_suite := sl.last.or ctx1.test_suite }
      match sl.stop with
      | some o => ⟨sl.trace, o, ctx2⟩
      | none => ⟨sl.trace, if sl.err then .exited 1 else .finished, ctx2⟩

/-- The (suite, decoder) pairs selected by the loops when no early stop
occurs: each suite paired with each decoder of its codec, in loop
order. -/
def matchingPairs (suites : List TestSuite) (decs : List Decoder) :
    List (TestSuite × Decoder) :=
  suites.flatMap (fun s => (decs.filter (fun d => d.codec = s.codec)).map (fun d => (s, d)))

/-- String repetition in the style of `"-|" * n`. -/
def strRepeat (s : String) (n : Nat) : String :=
  strJoin (List.replicate n s)

/-- One cell of the summary table:
`'✔️|' if not tvector.errors else '❌|'` after the dict lookup
`test_suite.test_vectors[test_vector.name]`.  On a missing key Python
raises a `KeyError`; the reporter's contract (all result sets share the
suite's vector keys) keeps that branch unreachable, here it renders a
failing cell. -/
def summaryCell (ts : SuiteRunResult) (n : String) : String :=
  match lookupVector ts.test_vectors n with
  | some v => if v.errors.isEmpty then "✔️|" else "❌|"
  | none => "❌|"

/-- Embedding of `Fluster._generate_summary`: the markdown comparison table built by
successive `+=` on `output` — a header of decoder names, a separator, a
row per vector of the first result with a cell per decoder, and a TOTAL
row of successful/total counts.  `results[0]` on an empty list raises
an `IndexError` in Python; the model renders no vector rows there. -/
def generate_summary (results : List (Decoder × SuiteRunResult)) : String :=
  let test_suites := results.map (fun r => r.2)
  let headVecs := (results.head?.map (fun r => r.2.test_vectors)).getD []
  "|Test|" ++ strJoin (results.map (fun r => r.1.name ++ "|"))
    ++ "\n|-|" ++ strRepeat "-|" results.length
    ++ strJoin (headVecs.map (fun v =>
        "\n|" ++ v.name ++ "|"
          ++ strJoin (test_suites.map (fun ts => summaryCell ts v.name))))
    ++ "\n|TOTAL|"
    ++ strJoin (test_suites.map (fun ts =>
        toString ts.test_vectors_success ++ "/"
          ++ toString ts.test_vectors.length ++ "|"))

/-- Spec-side description of the summary table, line by line: the header
row with one decoder-name column per result. -/
def summaryHeader (results : List (Decoder × SuiteRunResult)) : String :=
  "|Test|" ++ strJoin (results.map (fun r => r.1.name ++ "|"))

/-- Spec-side description: the markdown separator line. -/
def summarySepLine (results : List (Decoder × SuiteRunResult)) : String :=
  "|-|" ++ strRepeat "-|" results.length

/-- Spec-side description: one table row for a vector, with one
pass/fail cell per decoder result. -/
def summaryRow (results : List (Decoder × SuiteRunResult)) (v : TestVector) : String :=
  "|" ++ v.name ++ "|" ++ strJoin (results.map (fun r => summaryCell r.2 v.name))

/-- Spec-side description: the totals row, showing for each decoder the
count of successful vectors over the total vector count. -/
def summaryTotalsLine (results : List (Decoder × SuiteRunResult)) : String :=
  "|TOTAL|" ++ strJoin (results.map (fun r =>
    toString r.2.test_vectors_success ++ "/" ++ toString r.2.test_vectors.length ++ "|"))

/-- Spec-side description of the whole table as a list of lines: header,
separator, one row per vector of the suite, totals row. -/
def summaryTableLines (results : List (Decoder × SuiteRunResult)) : List String :=
  summaryHeader results :: summarySepLine results ::
    (((results.head?.map (fun r => r.2.test_vectors)).getD []).map (summaryRow results))
    ++ [summaryTotalsLine results]

/-- One file met while walking the test-suite definitions directory.
`parse` is the outcome of `TestSuite.from_json_file` on it — that parser
lives in test_suite.py (absent from src/), so each file carries its
parse outcome as data: a suite, or the exception message. -/
structure ScanFile where
  name : String
  parse : Except String TestSuite

/-- Embedding of `os.path.splitext(p)[1]` for a bare file name: the extension starts
at the last dot, except that a name consisting only of leading dots up
to that point has no extension. -/
def splitextExt (p : String) : String :=
  let cs := p.toList
  match cs.reverse.findIdx? (fun c => c = '.') with
  | none => ""
  | some j =>
    let i := cs.length - 1 - j
    if (cs.take i).any (fun c => c ≠ '.') then String.mk (cs.drop i) else ""

/-- The loader's per-file guard `os.path.splitext(file)[1] == '.json'`. -/
def isJsonFile (name : String) : Bool :=
  splitextExt name == ".json"

/-- One iteration of the `_load_test_suites` walk: a `.json` file is
parsed — the suite appended on success, the message
`Error loading test suite {file}: {ex}` printed (recorded) on failure —
and any other file is ignored. -/
def scanStep (acc : List TestSuite × List String) (f : ScanFile) :
    List TestSuite × List String :=
  if isJsonFile f.name then
    match f.parse with
    | .ok ts => (acc.1 ++ [ts], acc.2)
    | .error e =>
        (acc.1, acc.2 ++ ["Error loading test suite " ++ f.name ++ ": " ++ e])
  else acc

/-- The body of `Fluster._load_test_suites`: walk the files, and for
each `.json` file try to parse it — appending the suite on success, or
printing (recording) the error and continuing on failure.  Returns the
loaded suites and the reported errors. -/
def scan_test_suites (files : List ScanFile) : List TestSuite × List String :=
  files.foldl scanStep ([], [])

/-- The per-instance state touched by `_load_test_suites`:
`self.test_suites` plus the `@lru_cache(maxsize=None)` entry for the
nullary method, modelled as a Bool. -/
structure FlusterLoadState where
  test_suites : List TestSuite
  suites_loaded : Bool
deriving DecidableEq

/-- Embedding of `Fluster._load_test_suites` with its `@lru_cache(maxsize=None)`
decorator: the first call on an instance runs the body (appending every
parsed suite to `self.test_suites`); any later call hits the cache and
leaves the state untouched.  The returned Bool records whether this
call actually scanned the definitions directory. -/
def load_test_suites (files : List ScanFile) (fl : FlusterLoadState) :
    FlusterLoadState × Bool :=
  if fl.suites_loaded then (fl, false)
  else
    ({ test_suites := fl.test_suites ++ (scan_test_suites files).1,
       suites_loaded := true }, true)

/-- The selection step of `Fluster.download_test_suites`: with a falsy
filter everything is selected, otherwise
`[t for t in self.test_suites if t.name in test_suites]` — exact,
case-sensitive name membership; every selected suite is then
downloaded, so the returned list is exactly the set of downloads. -/
def download_test_suites (fl_suites : List TestSuite)
    (test_suites : List String) : List TestSuite :=
  if test_suites.isEmpty then fl_suites
  else fl_suites.filter (fun t => test_suites.contains t.name)

/-! ## Concrete fixtures used by the witnesses and counterexamples -/

/-- A catalogue H.264 suite with two vectors. -/
def suiteA : TestSuite :=
  ⟨"SuiteA", .H264, [⟨"VecA1", []⟩, ⟨"VecA2", []⟩]⟩

/-- A catalogue VP8 suite with one vector. -/
def suiteB : TestSuite :=
  ⟨"SuiteB", .VP8, [⟨"VecB1", []⟩]⟩

/-- An H.264 decoder registry entry. -/
def decA : Decoder := ⟨"DecA", .H264⟩

/-- A VP8 decoder registry entry. -/
def decB : Decoder := ⟨"DecB", .VP8⟩

/-- A loaded orchestrator instance with two suites and two decoders. -/
def fl0 : Fluster := ⟨[suiteA, suiteB], [decA, decB]⟩

/-- A run oracle under which every vector of every suite passes. -/
def oracleAllPass : TestSuite → Decoder → Option SuiteRunResult :=
  fun s _ => some ⟨s.name, s.test_vectors⟩

/-- A run oracle under which `SuiteA` fails its first vector and every
other suite passes. -/
def oracleFailA : TestSuite → Decoder → Option SuiteRunResult :=
  fun s _ =>
    if s.name = "SuiteA" then
      some ⟨s.name, [⟨"VecA1", ["checksum mismatch"]⟩, ⟨"VecA2", []⟩]⟩
    else some ⟨s.name, s.test_vectors⟩

/-- A fresh run context with no filters, as built from default CLI
arguments. -/
def ctx0 : Context :=
  { jobs := 4, timeout := 30, test_suites := .names none, decoders := .names none,
    test_vectors := none, failfast := false, quiet := false, reference := false,
    summary := false, keep_files := false }

/-! ## Lemmas about the selection resolver -/

theorem suiteRunM_ok {oracle : TestSuite → Decoder → Option SuiteRunResult}
    {s : TestSuite} {d : Decoder} {tv : Option (List String)}
    {o : Option SuiteRunResult} (h : suiteRunM oracle s d tv = .ok o) :
    o = oracle s d := by
  unfold suiteRunM at h
  split at h
  · exact absurd h (by simp)
  · exact (Except.ok.injEq _ _ ▸ h).symm

theorem suiteRunM_error {oracle : TestSuite → Decoder → Option SuiteRunResult}
    {s : TestSuite} {d : Decoder} {tv : Option (List String)} {e : FlusterError}
    (h : suiteRunM oracle s d tv = .error e) :
    vfilterEmpty s tv = true ∧ e = .noMatch "test vectors" (tv.getD []) := by
  unfold suiteRunM at h
  split at h
  · next hv => exact ⟨hv, ((Except.error.injEq _ _).mp h).symm⟩
  · exact absurd h (by simp)

theorem normalize_context_ok {fl : Fluster} {ctx ctx1 : Context}
    (h : normalize_context fl ctx = .ok ctx1) :
    ∃ tsn dcn rs rd,
      ctx.test_suites = .names tsn ∧ ctx.decoders = .names dcn ∧
      get_run_param (optLower tsn) fl.test_suites TestSuite.name "test suite" = .ok rs ∧
      get_run_param (optLower dcn) fl.decoders Decoder.name "decoders" = .ok rd ∧
      ctx1 = { ctx with
                test_suites := .objs rs
                decoders := .objs rd
                test_vectors := optLower ctx.test_vectors } := by
  unfold normalize_context at h
  split at h
  case _ tsn dcn hts hdc =>
    dsimp only at h
    rcases hs : get_run_param (optLower tsn) fl.test_suites TestSuite.name "test suite" with e | rs
    · rw [hs] at h; exact absurd h (by simp)
    · rw [hs] at h
      rcases hd : get_run_param (optLower dcn) fl.decoders Decoder.name "decoders" with e | rd
      · rw [hd] at h; exact absurd h (by simp)
      · rw [hd] at h
        refine ⟨tsn, dcn, rs, rd, hts, hdc, hs, hd, ?_⟩
        exact ((Except.ok.injEq _ _).mp h).symm
  case _ => exact absurd h (by simp)

theorem normalize_preserves {fl : Fluster} {ctx ctx1 : Context}
    (h : normalize_context fl ctx = .ok ctx1) :
    ctx1.jobs = ctx.jobs ∧ ctx1.timeout = ctx.timeout ∧
    ctx1.failfast = ctx.failfast ∧ ctx1.quiet = ctx.quiet ∧
    ctx1.reference = ctx.reference ∧ ctx1.summary = ctx.summary ∧
    ctx1.keep_files = ctx.keep_files ∧ ctx1.test_suite = ctx.test_suite := by
  obtain ⟨tsn, dcn, rs, rd, _, _, _, _, hctx⟩ := normalize_context_ok h
  subst hctx
  exact ⟨rfl, rfl, rfl, rfl, rfl, rfl, rfl, rfl⟩

theorem get_run_param_falsy {check_list : List α} {nameOf : α → String}
    {what : String} {in_list : Option (List String)}
    (h : optTruthy in_list = false) :
    get_run_param in_list check_list nameOf what = .ok check_list := by
  unfold get_run_param
  rw [h]
  rfl

theorem get_run_param_no_match {check_list : List α} {nameOf : α → String}
    {what : String} {l : List String} (hne : l ≠ [])
    (hnm : ∀ x ∈ check_list, l.contains (strToLower (nameOf x)) = false) :
    get_run_param (some l) check_list nameOf what = .error (.noMatch what l) := by
  unfold get_run_param
  have ht : optTruthy (some l) = true := by
    simp [optTruthy, List.isEmpty_iff, hne]
  rw [ht]
  simp only [if_true, Option.getD_some]
  have : check_list.filter (fun x => l.contains (strToLower (nameOf x))) = [] :=
    List.filter_eq_nil_iff.mpr (fun x hx => by simpa using hnm x hx)
  rw [this]
  rfl

/-! ## Lemmas about the execution loops -/

theorem runDecLoop_nil {oracle : TestSuite → Decoder → Option SuiteRunResult}
    {ff : Bool} {tv : Option (List String)} {s : TestSuite} {err : Bool} :
    runDecLoop oracle ff tv s [] err = ⟨[], err, none⟩ := rfl

theorem runDecLoop_cons_skip {oracle : TestSuite → Decoder → Option SuiteRunResult}
    {ff : Bool} {tv : Option (List String)} {s : TestSuite} {d : Decoder}
    {ds : List Decoder} {err : Bool} (hc : d.codec ≠ s.codec) :
    runDecLoop oracle ff tv s (d :: ds) err = runDecLoop oracle ff tv s ds err := by
  simp only [runDecLoop]
  rw [if_pos (by simp [hc])]

theorem runDecLoop_cons_raise {oracle : TestSuite → Decoder → Option SuiteRunResult}
    {ff : Bool} {tv : Option (List String)} {s : TestSuite} {d : Decoder}
    {ds : List Decoder} {err : Bool} {e : FlusterError} (hc : d.codec = s.codec)
    (hr : suiteRunM oracle s d tv = .error e) :
    runDecLoop oracle ff tv s (d :: ds) err = ⟨[], err, some (.raised e)⟩ := by
  simp only [runDecLoop]
  rw [if_neg (by simp [hc]), hr]

theorem runDecLoop_cons_none {oracle : TestSuite → Decoder → Option SuiteRunResult}
    {ff : Bool} {tv : Option (List String)} {s : TestSuite} {d : Decoder}
    {ds : List Decoder} {err : Bool} (hc : d.codec = s.codec)
    (hr : suiteRunM oracle s d tv = .ok none) :
    runDecLoop oracle ff tv s (d :: ds) err =
      ⟨(s, d) :: (runDecLoop oracle ff tv s ds err).trace,
       (runDecLoop oracle ff tv s ds err).err,
       (runDecLoop oracle ff tv s ds err).stop⟩ := by
  simp only [runDecLoop]
  rw [if_neg (by simp [hc]), hr]

theorem runDecLoop_cons_fail_ff {oracle : TestSuite → Decoder → Option SuiteRunResult}
    {tv : Option (List String)} {s : TestSuite} {d : Decoder}
    {ds : List Decoder} {err : Bool} {res : SuiteRunResult} (hc : d.codec = s.codec)
    (hr : suiteRunM oracle s d tv = .ok (some res))
    (hfail : res.test_vectors.any (fun v => !v.errors.isEmpty) = true) :
    runDecLoop oracle true tv s (d :: ds) err = ⟨[(s, d)], err, some (.exited 1)⟩ := by
  simp only [runDecLoop]
  rw [if_neg (by simp [hc]), hr]
  dsimp only
  rw [if_pos hfail]
  simp

theorem runDecLoop_cons_fail_noff {oracle : TestSuite → Decoder → Option SuiteRunResult}
    {tv : Option (List String)} {s : TestSuite} {d : Decoder}
    {ds : List Decoder} {err : Bool} {res : SuiteRunResult} (hc : d.codec = s.codec)
    (hr : suiteRunM oracle s d tv = .ok (some res))
    (hfail : res.test_vectors.any (fun v => !v.errors.isEmpty) = true) :
    runDecLoop oracle false tv s (d :: ds) err =
      ⟨(s, d) :: (runDecLoop oracle false tv s ds true).trace,
       (runDecLoop oracle false tv s ds true).err,
       (runDecLoop oracle false tv s ds true).stop⟩ := by
  simp only [runDecLoop]
  rw [if_neg (by simp [hc]), hr]
  dsimp only
  rw [if_pos hfail, if_neg (by simp)]

theorem runDecLoop_cons_pass {oracle : TestSuite → Decoder → Option SuiteRunResult}
    {ff : Bool} {tv : Option (List String)} {s : TestSuite} {d : Decoder}
    {ds : List Decoder} {err : Bool} {res : SuiteRunResult} (hc : d.codec = s.codec)
    (hr : suiteRunM oracle s d tv = .ok (some res))
    (hfail : res.test_vectors.any (fun v => !v.errors.isEmpty) = false) :
    runDecLoop oracle ff tv s (d :: ds) err =
      ⟨(s, d) :: (runDecLoop oracle ff tv s ds err).trace,
       (runDecLoop oracle ff tv s ds err).err,
       (runDecLoop oracle ff tv s ds err).stop⟩ := by
  simp only [runDecLoop]
  rw [if_neg (by simp [hc]), hr]
  dsimp only
  rw [if_neg (by simp [hfail])]

theorem runSuiteLoop_nil {oracle : TestSuite → Decoder → Option SuiteRunResult}
    {ff : Bool} {tv : Option (List String)} {decs : List Decoder} {err : Bool} :
    runSuiteLoop oracle ff tv decs [] err = ⟨[], err, none, none⟩ := rfl

theorem runSuiteLoop_cons_stop {oracle : TestSuite → Decoder → Option SuiteRunResult}
    {ff : Bool} {tv : Option (List String)} {decs : List Decoder}
    {s : TestSuite} {ss : List TestSuite} {err : Bool} {o : RunOutcome}
    (h : (runDecLoop oracle ff tv s decs err).stop = some o) :
    runSuiteLoop oracle ff tv decs (s :: ss) err =
      ⟨(runDecLoop oracle ff tv s decs err).trace,
       (runDecLoop oracle ff tv s decs err).err, some o, some s⟩ := by
  simp only [runSuiteLoop]
  rw [h]

theorem runSuiteLoop_cons_go {oracle : TestSuite → Decoder → Option SuiteRunResult}
    {ff : Bool} {tv : Option (List String)} {decs : List Decoder}
    {s : TestSuite} {ss : List TestSuite} {err : Bool}
    (h : (runDecLoop oracle ff tv s decs err).stop = none) :
    runSuiteLoop oracle ff tv decs (s :: ss) err =
      ⟨(runDecLoop oracle ff tv s decs err).trace
         ++ (runSuiteLoop oracle ff tv decs ss (runDecLoop oracle ff tv s decs err).err).trace,
       (runSuiteLoop oracle ff tv decs ss (runDecLoop oracle ff tv s decs err).err).err,
       (runSuiteLoop oracle ff tv decs ss (runDecLoop oracle ff tv s decs err).err).stop,
       some ((runSuiteLoop oracle ff tv decs ss
                (runDecLoop oracle ff tv s decs err).err).last.getD s)⟩ := by
  simp only [runSuiteLoop]
  rw [h]

theorem runDecLoop_trace_mem {oracle : TestSuite → Decoder → Option SuiteRunResult}
    {ff : Bool} {tv : Option (List String)} {s : TestSuite} :
    ∀ {ds : List Decoder} {err : Bool} {p : TestSuite × Decoder},
      p ∈ (runDecLoop oracle ff tv s ds err).trace →
      p.1 = s ∧ p.2 ∈ ds ∧ p.2.codec = s.codec := by
  intro ds
  induction ds with
  | nil => intro err p hp; simp [runDecLoop] at hp
  | cons d ds ih =>
    intro err p hp
    by_cases hc : d.codec = s.codec
    · rcases hr : suiteRunM oracle s d tv with e | o
      · simp [runDecLoop, hc, hr] at hp
      · rcases o with _ | res
        · simp only [runDecLoop, hc] at hp
          rw [if_neg (by simp), hr] at hp
          simp at hp
          rcases hp with hp | hp
          · subst hp; exact ⟨rfl, List.mem_cons_self _ _, hc⟩
          · obtain ⟨h1, h2, h3⟩ := ih hp
            exact ⟨h1, List.mem_cons_of_mem _ h2, h3⟩
        · simp only [runDecLoop, hc] at hp
          rw [if_neg (by simp), hr] at hp
          dsimp only at hp
          by_cases hfail : res.test_vectors.any (fun v => !v.errors.isEmpty)
          · rw [if_pos hfail] at hp
            by_cases hf : ff
            · rw [if_pos hf] at hp
              simp at hp
              subst hp; exact ⟨rfl, List.mem_cons_self _ _, hc⟩
            · rw [if_neg hf] at hp
              simp at hp
              rcases hp with hp | hp
              · subst hp; exact ⟨rfl, List.mem_cons_self _ _, hc⟩
              · obtain ⟨h1, h2, h3⟩ := ih hp
                exact ⟨h1, List.mem_cons_of_mem _ h2, h3⟩
          · rw [if_neg hfail] at hp
            simp at hp
            rcases hp with hp | hp
            · subst hp; exact ⟨rfl, List.mem_cons_self _ _, hc⟩
            · obtain ⟨h1, h2, h3⟩ := ih hp
              exact ⟨h1, List.mem_cons_of_mem _ h2, h3⟩
    · simp only [runDecLoop] at hp
      rw [if_pos (by simp [hc])] at hp
      obtain ⟨h1, h2, h3⟩ := ih hp
      exact ⟨h1, List.mem_cons_of_mem _ h2, h3⟩

theorem suiteRunM_raise {oracle : TestSuite → Decoder → Option SuiteRunResult}
    {s : TestSuite} {d : Decoder} {tv : Option (List String)}
    (h : vfilterEmpty s tv = true) :
    suiteRunM oracle s d tv = .error (.noMatch "test vectors" (tv.getD [])) := by
  unfold suiteRunM
  rw [if_pos h]

theorem pairFails_of_none {oracle : TestSuite → Decoder → Option SuiteRunResult}
    {s : TestSuite} {d : Decoder} (h : oracle s d = none) :
    pairFails oracle (s, d) = false := by
  unfold pairFails
  rw [h]

theorem pairFails_of_some {oracle : TestSuite → Decoder → Option SuiteRunResult}
    {s : TestSuite} {d : Decoder} {res : SuiteRunResult} (h : oracle s d = some res) :
    pairFails oracle (s, d) = res.test_vectors.any (fun v => !v.errors.isEmpty) := by
  unfold pairFails
  rw [h]

theorem runDecLoop_err_ff_true {oracle : TestSuite → Decoder → Option SuiteRunResult}
    {tv : Option (List String)} {s : TestSuite} :
    ∀ {ds : List Decoder} {err : Bool},
      (runDecLoop oracle true tv s ds err).err = err := by
  intro ds
  induction ds with
  | nil => intro err; rw [runDecLoop_nil]
  | cons d ds ih =>
    intro err
    by_cases hc : d.codec = s.codec
    · rcases hr : suiteRunM oracle s d tv with e | o
      · rw [runDecLoop_cons_raise hc hr]
      · rcases o with _ | res
        · rw [runDecLoop_cons_none hc hr]; exact ih
        · by_cases hfail : res.test_vectors.any (fun v => !v.errors.isEmpty) = true
          · rw [runDecLoop_cons_fail_ff hc hr hfail]
          · rw [runDecLoop_cons_pass hc hr (by simpa using hfail)]; exact ih
    · rw [runDecLoop_cons_skip hc]; exact ih

theorem runDecLoop_ff_true_char (oracle : TestSuite → Decoder → Option SuiteRunResult)
    (tv : Option (List String)) (s : TestSuite) :
    ∀ (ds : List Decoder) (err : Bool),
      ((∀ p ∈ (runDecLoop oracle true tv s ds err).trace, pairFails oracle p = false)
        ∧ (runDecLoop oracle true tv s ds err).stop ≠ some (.exited 1))
      ∨ ((runDecLoop oracle true tv s ds err).stop = some (.exited 1)
        ∧ ∃ pre fp, (runDecLoop oracle true tv s ds err).trace = pre ++ [fp]
            ∧ pairFails oracle fp = true
            ∧ ∀ p ∈ pre, pairFails oracle p = false) := by
  intro ds
  induction ds with
  | nil => intro err; left; rw [runDecLoop_nil]; simp
  | cons d ds ih =>
    intro err
    by_cases hc : d.codec = s.codec
    · rcases hr : suiteRunM oracle s d tv with e | o
      · left; rw [runDecLoop_cons_raise hc hr]; simp
      · rcases o with _ | res
        · have hnone : oracle s d = none := (suiteRunM_ok hr).symm
          rw [runDecLoop_cons_none hc hr]
          rcases ih err with ⟨htr, hst⟩ | ⟨hst, pre, fp, htr, hfp, hpre⟩
          · left
            refine ⟨?_, hst⟩
            intro p hp
            rcases List.mem_cons.mp hp with hp | hp
            · subst hp; exact pairFails_of_none hnone
            · exact htr p hp
          · right
            refine ⟨hst, (s, d) :: pre, fp, by simp [htr], hfp, ?_⟩
            intro p hp
            rcases List.mem_cons.mp hp with hp | hp
            · subst hp; exact pairFails_of_none hnone
            · exact hpre p hp
        · have hsome : oracle s d = some res := (suiteRunM_ok hr).symm
          by_cases hfail : res.test_vectors.any (fun v => !v.errors.isEmpty) = true
          · right
            rw [runDecLoop_cons_fail_ff hc hr hfail]
            refine ⟨rfl, [], (s, d), by simp, ?_, by simp⟩
            rw [pairFails_of_some hsome]; exact hfail
          · have hfail' : res.test_vectors.any (fun v => !v.errors.isEmpty) = false := by
              simpa using hfail
            rw [runDecLoop_cons_pass hc hr hfail']
            rcases ih err with ⟨htr, hst⟩ | ⟨hst, pre, fp, htr, hfp, hpre⟩
            · left
              refine ⟨?_, hst⟩
              intro p hp
              rcases List.mem_cons.mp hp with hp | hp
              · subst hp; rw [pairFails_of_some hsome]; exact hfail'
              · exact htr p hp
            · right
              refine ⟨hst, (s, d) :: pre, fp, by simp [htr], hfp, ?_⟩
              intro p hp
              rcases List.mem_cons.mp hp with hp | hp
              · subst hp; rw [pairFails_of_some hsome]; exact hfail'
              · exact hpre p hp
    · rw [runDecLoop_cons_skip hc]; exact ih err

theorem runSuiteLoop_ff_true_char (oracle : TestSuite → Decoder → Option SuiteRunResult)
    (tv : Option (List String)) (decs : List Decoder) :
    ∀ (suites : List TestSuite) (err : Bool),
      ((∀ p ∈ (runSuiteLoop oracle true tv decs suites err).trace, pairFails oracle p = false)
        ∧ (runSuiteLoop oracle true tv decs suites err).stop ≠ some (.exited 1))
      ∨ ((runSuiteLoop oracle true tv decs suites err).stop = some (.exited 1)
        ∧ ∃ pre fp, (runSuiteLoop oracle true tv decs suites err).trace = pre ++ [fp]
            ∧ pairFails oracle fp = true
            ∧ ∀ p ∈ pre, pairFails oracle p = false) := by
  intro suites
  induction suites with
  | nil => intro err; left; rw [runSuiteLoop_nil]; simp
  | cons s ss ih =>
    intro err
    rcases hstop : (runDecLoop oracle true tv s decs err).stop with _ | o
    · rw [runSuiteLoop_cons_go hstop]
      have hdec := runDecLoop_ff_true_char oracle tv s decs err
      rcases hdec with ⟨htr, _⟩ | ⟨hst, _⟩
      · rcases ih ((runDecLoop oracle true tv s decs err).err)
          with ⟨htr2, hst2⟩ | ⟨hst2, pre, fp, htr2, hfp, hpre⟩
        · left
          refine ⟨?_, hst2⟩
          intro p hp
          rcases List.mem_append.mp hp with hp | hp
          · exact htr p hp
          · exact htr2 p hp
        · right
          refine ⟨hst2, (runDecLoop oracle true tv s decs err).trace ++ pre, fp,
            by rw [htr2, List.append_assoc], hfp, ?_⟩
          intro p hp
          rcases List.mem_append.mp hp with hp | hp
          · exact htr p hp
          · exact hpre p hp
      · rw [hstop] at hst; exact absurd hst (by simp)
    · rw [runSuiteLoop_cons_stop hstop]
      have hdec := runDecLoop_ff_true_char oracle tv s decs err
      by_cases ho : o = .exited 1
      · subst ho
        rcases hdec with ⟨_, hst⟩ | ⟨_, pre, fp, htr, hfp, hpre⟩
        · exact absurd hstop hst
        · right
          exact ⟨rfl, pre, fp, htr, hfp, hpre⟩
      · rcases hdec with ⟨htr, _⟩ | ⟨hst, _⟩
        · left
          refine ⟨htr, ?_⟩
          intro hcon
          exact ho (by injection hcon)
        · rw [hstop] at hst
          exact absurd (by injection hst) ho

theorem runDecLoop_ff_false_char (oracle : TestSuite → Decoder → Option SuiteRunResult)
    (tv : Option (List String)) (s : TestSuite) :
    ∀ (ds : List Decoder) (err : Bool),
      (∃ e, (runDecLoop oracle false tv s ds err).stop = some (.raised e))
      ∨ ((runDecLoop oracle false tv s ds err).stop = none
        ∧ (runDecLoop oracle false tv s ds err).trace
            = (ds.filter (fun d => d.codec = s.codec)).map (fun d => (s, d))
        ∧ (runDecLoop oracle false tv s ds err).err
            = (err || (runDecLoop oracle false tv s ds err).trace.any (pairFails oracle))) := by
  intro ds
  induction ds with
  | nil => intro err; right; rw [runDecLoop_nil]; simp
  | cons d ds ih =>
    intro err
    by_cases hc : d.codec = s.codec
    · rcases hr : suiteRunM oracle s d tv with e | o
      · left; exact ⟨e, by rw [runDecLoop_cons_raise hc hr]⟩
      · rcases o with _ | res
        · have hnone : oracle s d = none := (suiteRunM_ok hr).symm
          rw [runDecLoop_cons_none hc hr]
          rcases ih err with ⟨e, hst⟩ | ⟨hst, htr, herr⟩
          · left; exact ⟨e, hst⟩
          · right
            refine ⟨hst, ?_, ?_⟩
            · rw [List.filter_cons_of_pos (by simp [hc]), List.map_cons, htr]
            · simp only [List.any_cons, pairFails_of_none hnone, Bool.false_or]
              exact herr
        · have hsome : oracle s d = some res := (suiteRunM_ok hr).symm
          by_cases hfail : res.test_vectors.any (fun v => !v.errors.isEmpty) = true
          · rw [runDecLoop_cons_fail_noff hc hr hfail]
            rcases ih true with ⟨e, hst⟩ | ⟨hst, htr, herr⟩
            · left; exact ⟨e, hst⟩
            · right
              refine ⟨hst, ?_, ?_⟩
              · rw [List.filter_cons_of_pos (by simp [hc]), List.map_cons, htr]
              · simp only [List.any_cons, pairFails_of_some hsome, hfail, Bool.true_or,
                  Bool.or_true]
                rw [herr]
                simp
          · have hfail' : res.test_vectors.any (fun v => !v.errors.isEmpty) = false := by
              simpa using hfail
            rw [runDecLoop_cons_pass hc hr hfail']
            rcases ih err with ⟨e, hst⟩ | ⟨hst, htr, herr⟩
            · left; exact ⟨e, hst⟩
            · right
              refine ⟨hst, ?_, ?_⟩
              · rw [List.filter_cons_of_pos (by simp [hc]), List.map_cons, htr]
              · simp only [List.any_cons, pairFails_of_some hsome, hfail', Bool.false_or]
                exact herr
    · rw [runDecLoop_cons_skip hc, List.filter_cons_of_neg (by simp [hc])]
      exact ih err

theorem runSuiteLoop_ff_false_char (oracle : TestSuite → Decoder → Option SuiteRunResult)
    (tv : Option (List String)) (decs : List Decoder) :
    ∀ (suites : List TestSuite) (err : Bool),
      (∃ e, (runSuiteLoop oracle false tv decs suites err).stop = some (.raised e))
      ∨ ((runSuiteLoop oracle false tv decs suites err).stop = none
        ∧ (runSuiteLoop oracle false tv decs suites err).trace = matchingPairs suites decs
        ∧ (runSuiteLoop oracle false tv decs suites err).err
            = (err || (runSuiteLoop oracle false tv decs suites err).trace.any
                (pairFails oracle))) := by
  intro suites
  induction suites with
  | nil => intro err; right; rw [runSuiteLoop_nil]; simp [matchingPairs]
  | cons s ss ih =>
    intro err
    rcases hstop : (runDecLoop oracle false tv s decs err).stop with _ | o
    · rw [runSuiteLoop_cons_go hstop]
      have hdec := runDecLoop_ff_false_char oracle tv s decs err
      rcases hdec with ⟨e, hst⟩ | ⟨_, htr, herr⟩
      · rw [hstop] at hst; exact absurd hst (by simp)
      · rcases ih ((runDecLoop oracle false tv s decs err).err)
          with ⟨e, hst2⟩ | ⟨hst2, htr2, herr2⟩
        · left; exact ⟨e, hst2⟩
        · right
          refine ⟨hst2, ?_, ?_⟩
          · rw [htr, htr2]
            simp [matchingPairs]
          · rw [herr2, herr, List.any_append, Bool.or_assoc]
    · rw [runSuiteLoop_cons_stop hstop]
      have hdec := runDecLoop_ff_false_char oracle tv s decs err
      rcases hdec with ⟨e, hst⟩ | ⟨hst, _⟩
      · rw [hstop] at hst
        left
        exact ⟨e, by rw [← hst]⟩
      · rw [hstop] at hst; exact absurd hst (by simp)

theorem runSuiteLoop_err_ff_true {oracle : TestSuite → Decoder → Option SuiteRunResult}
    {tv : Option (List String)} {decs : List Decoder} :
    ∀ {suites : List TestSuite} {err : Bool},
      (runSuiteLoop oracle true tv decs suites err).err = err := by
  intro suites
  induction suites with
  | nil => intro err; rw [runSuiteLoop_nil]
  | cons s ss ih =>
    intro err
    rcases hstop : (runDecLoop oracle true tv s decs err).stop with _ | o
    · rw [runSuiteLoop_cons_go hstop]
      dsimp only
      rw [ih, runDecLoop_err_ff_true]
    · rw [runSuiteLoop_cons_stop hstop]
      exact runDecLoop_err_ff_true

theorem runSuiteLoop_trace_mem {oracle : TestSuite → Decoder → Option SuiteRunResult}
    {ff : Bool} {tv : Option (List String)} {decs : List Decoder} :
    ∀ {suites : List TestSuite} {err : Bool} {p : TestSuite × Decoder},
      p ∈ (runSuiteLoop oracle ff tv decs suites err).trace →
      p.1 ∈ suites ∧ p.2 ∈ decs ∧ p.2.codec = p.1.codec := by
  intro suites
  induction suites with
  | nil => intro err p hp; rw [runSuiteLoop_nil] at hp; simp at hp
  | cons s ss ih =>
    intro err p hp
    rcases hstop : (runDecLoop oracle ff tv s decs err).stop with _ | o
    · rw [runSuiteLoop_cons_go hstop] at hp
      rcases List.mem_append.mp hp with hp | hp
      · obtain ⟨h1, h2, h3⟩ := runDecLoop_trace_mem hp
        exact ⟨h1 ▸ List.mem_cons_self _ _, h2, h1 ▸ h3⟩
      · obtain ⟨h1, h2, h3⟩ := ih hp
        exact ⟨List.mem_cons_of_mem _ h1, h2, h3⟩
    · rw [runSuiteLoop_cons_stop hstop] at hp
      obtain ⟨h1, h2, h3⟩ := runDecLoop_trace_mem hp
      exact ⟨h1 ▸ List.mem_cons_self _ _, h2, h1 ▸ h3⟩

theorem runDecLoop_stop_not_ref {oracle : TestSuite → Decoder → Option SuiteRunResult}
    {ff : Bool} {tv : Option (List String)} {s : TestSuite} :
    ∀ {ds : List Decoder} {err : Bool} {o : RunOutcome},
      (runDecLoop oracle ff tv s ds err).stop = some o → o.isRefError = false := by
  intro ds
  induction ds with
  | nil => intro err o h; rw [runDecLoop_nil] at h; exact absurd h (by simp)
  | cons d ds ih =>
    intro err o h
    by_cases hc : d.codec = s.codec
    · rcases hr : suiteRunM oracle s d tv with e | oo
      · rw [runDecLoop_cons_raise hc hr] at h
        obtain ⟨_, he⟩ := suiteRunM_error hr
        have : o = .raised e := by injection h with h; exact h.symm
        subst this; subst he
        rfl
      · rcases oo with _ | res
        · rw [runDecLoop_cons_none hc hr] at h; exact ih h
        · by_cases hfail : res.test_vectors.any (fun v => !v.errors.isEmpty) = true
          · cases ff
            · rw [runDecLoop_cons_fail_noff hc hr hfail] at h; exact ih h
            · rw [runDecLoop_cons_fail_ff hc hr hfail] at h
              have : o = .exited 1 := by injection h with h; exact h.symm
              subst this
              rfl
          · rw [runDecLoop_cons_pass hc hr (by simpa using hfail)] at h; exact ih h
    · rw [runDecLoop_cons_skip hc] at h; exact ih h

theorem runSuiteLoop_stop_not_ref {oracle : TestSuite → Decoder → Option SuiteRunResult}
    {ff : Bool} {tv : Option (List String)} {decs : List Decoder} :
    ∀ {suites : List TestSuite} {err : Bool} {o : RunOutcome},
      (runSuiteLoop oracle ff tv decs suites err).stop = some o → o.isRefError = false := by
  intro suites
  induction suites with
  | nil => intro err o h; rw [runSuiteLoop_nil] at h; exact absurd h (by simp)
  | cons s ss ih =>
    intro err o h
    rcases hstop : (runDecLoop oracle ff tv s decs err).stop with _ | o'
    · rw [runSuiteLoop_cons_go hstop] at h; exact ih h
    · rw [runSuiteLoop_cons_stop hstop] at h
      have : o' = o := by injection h with h
      subst this
      exact runDecLoop_stop_not_ref hstop

theorem runDecLoop_no_codec (oracle : TestSuite → Decoder → Option SuiteRunResult)
    (ff : Bool) (tv : Option (List String)) (s : TestSuite) :
    ∀ (ds : List Decoder) (err : Bool), (∀ d ∈ ds, d.codec ≠ s.codec) →
      runDecLoop oracle ff tv s ds err = ⟨[], err, none⟩ := by
  intro ds
  induction ds with
  | nil => intro err _; rw [runDecLoop_nil]
  | cons d ds ih =>
    intro err hall
    rw [runDecLoop_cons_skip (hall d (List.mem_cons_self _ _))]
    exact ih err (fun d' hd' => hall d' (List.mem_cons_of_mem _ hd'))

theorem runDecLoop_vfilter (oracle : TestSuite → Decoder → Option SuiteRunResult)
    (ff : Bool) (tv : Option (List String)) (s : TestSuite)
    (hv : vfilterEmpty s tv = true) :
    ∀ (ds : List Decoder) (err : Bool), (∃ d ∈ ds, d.codec = s.codec) →
      runDecLoop oracle ff tv s ds err
        = ⟨[], err, some (.raised (.noMatch "test vectors" (tv.getD [])))⟩ := by
  intro ds
  induction ds with
  | nil => intro err hex; simp at hex
  | cons d ds ih =>
    intro err hex
    by_cases hc : d.codec = s.codec
    · rw [runDecLoop_cons_raise hc (suiteRunM_raise hv)]
    · rw [runDecLoop_cons_skip hc]
      obtain ⟨d', hd', hcd⟩ := hex
      rcases List.mem_cons.mp hd' with h | h
      · exact absurd (h ▸ hcd) hc
      · exact ih err ⟨d', h, hcd⟩

theorem runSuiteLoop_vfilter (oracle : TestSuite → Decoder → Option SuiteRunResult)
    (ff : Bool) (tv : Option (List String)) (decs : List Decoder) :
    ∀ (suites : List TestSuite) (err : Bool),
      (∀ s ∈ suites, vfilterEmpty s tv = true) →
      (∃ s ∈ suites, ∃ d ∈ decs, d.codec = s.codec) →
      (runSuiteLoop oracle ff tv decs suites err).trace = []
        ∧ (runSuiteLoop oracle ff tv decs suites err).stop
            = some (.raised (.noMatch "test vectors" (tv.getD []))) := by
  intro suites
  induction suites with
  | nil => intro err _ hex; simp at hex
  | cons s ss ih =>
    intro err hall hex
    by_cases hm : ∃ d ∈ decs, d.codec = s.codec
    · have hd := runDecLoop_vfilter oracle ff tv s
        (hall s (List.mem_cons_self _ _)) decs err hm
      have hstop : (runDecLoop oracle ff tv s decs err).stop
          = some (.raised (.noMatch "test vectors" (tv.getD []))) := by rw [hd]
      rw [runSuiteLoop_cons_stop hstop, hd]
      exact ⟨rfl, rfl⟩
    · have hnone : ∀ d ∈ decs, d.codec ≠ s.codec := by
        intro d hd hcd
        exact hm ⟨d, hd, hcd⟩
      have hd := runDecLoop_no_codec oracle ff tv s decs err hnone
      have hstop : (runDecLoop oracle ff tv s decs err).stop = none := by rw [hd]
      rw [runSuiteLoop_cons_go hstop]
      have hex' : ∃ s' ∈ ss, ∃ d ∈ decs, d.codec = s'.codec := by
        obtain ⟨s', hs', hrest⟩ := hex
        rcases List.mem_cons.mp hs' with h | h
        · exact absurd (h ▸ hrest) hm
        · exact ⟨s', h, hrest⟩
      obtain ⟨htr, hst⟩ := ih ((runDecLoop oracle ff tv s decs err).err)
        (fun s' hs' => hall s' (List.mem_cons_of_mem _ hs')) hex'
      refine ⟨?_, hst⟩
      dsimp only
      rw [htr, hd]
      rfl

theorem optLower_some {l : List String} :
    optLower (some l) = some (l.map strToLower) := rfl

theorem optTruthy_optLower {o : Option (List String)} :
    optTruthy (optLower o) = optTruthy o := by
  rcases o with _ | l
  · rfl
  · cases l <;> rfl

theorem vfilterEmpty_of_no_match {s : TestSuite} {vs : List String} (hne : vs ≠ [])
    (h : ∀ v ∈ s.test_vectors, vs.contains (strToLower v.name) = false) :
    vfilterEmpty s (some vs) = true := by
  unfold vfilterEmpty
  have ht : optTruthy (some vs) = true := by simp [optTruthy, List.isEmpty_iff, hne]
  rw [ht]
  simp only [Bool.true_and, Option.getD_some, List.isEmpty_iff]
  exact List.filter_eq_nil_iff.mpr (fun v hv => by simpa using h v hv)

theorem normalize_context_error_suites {fl : Fluster} {ctx : Context}
    {tsn dcn : Option (List String)} {e : FlusterError}
    (hts : ctx.test_suites = .names tsn) (hdc : ctx.decoders = .names dcn)
    (h : get_run_param (optLower tsn) fl.test_suites TestSuite.name "test suite"
          = .error e) :
    normalize_context fl ctx = .error e := by
  unfold normalize_context
  rw [hts, hdc]
  dsimp only
  rw [h]

theorem normalize_context_error_decoders {fl : Fluster} {ctx : Context}
    {tsn dcn : Option (List String)} {rs : List TestSuite} {e : FlusterError}
    (hts : ctx.test_suites = .names tsn) (hdc : ctx.decoders = .names dcn)
    (hok : get_run_param (optLower tsn) fl.test_suites TestSuite.name "test suite"
            = .ok rs)
    (h : get_run_param (optLower dcn) fl.decoders Decoder.name "decoders" = .error e) :
    normalize_context fl ctx = .error e := by
  unfold normalize_context
  rw [hts, hdc]
  dsimp only
  rw [hok, h]

theorem normalize_context_ok_of {fl : Fluster} {ctx : Context}
    {tsn dcn : Option (List String)} {rs : List TestSuite} {rd : List Decoder}
    (hts : ctx.test_suites = .names tsn) (hdc : ctx.decoders = .names dcn)
    (hok : get_run_param (optLower tsn) fl.test_suites TestSuite.name "test suite"
            = .ok rs)
    (hok2 : get_run_param (optLower dcn) fl.decoders Decoder.name "decoders" = .ok rd) :
    normalize_context fl ctx
      = .ok { ctx with
                test_suites := .objs rs
                decoders := .objs rd
                test_vectors := optLower ctx.test_vectors } := by
  unfold normalize_context
  rw [hts, hdc]
  dsimp only
  rw [hok, hok2]

theorem run_test_suites_error {fl : Fluster}
    {oracle : TestSuite → Decoder → Option SuiteRunResult} {ctx : Context}
    {e : FlusterError} (h : normalize_context fl ctx = .error e) :
    run_test_suites fl oracle ctx = ⟨[], .raised e, ctx⟩ := by
  unfold run_test_suites
  rw [h]

theorem run_test_suites_ref {fl : Fluster}
    {oracle : TestSuite → Decoder → Option SuiteRunResult} {ctx ctx1 : Context}
    (hn : normalize_context fl ctx = .ok ctx1)
    (hg : (ctx1.reference
            && (ctx1.decsOf.isEmpty || decide (ctx1.decsOf.length > 1))) = true) :
    run_test_suites fl oracle ctx
      = ⟨[], .raised (.refDecoders (ctx1.decsOf.map Decoder.name)), ctx1⟩ := by
  unfold run_test_suites
  rw [hn]
  dsimp only
  rw [if_pos hg]

theorem run_test_suites_go_stop {fl : Fluster}
    {oracle : TestSuite → Decoder → Option SuiteRunResult} {ctx ctx1 : Context}
    {o : RunOutcome} (hn : normalize_context fl ctx = .ok ctx1)
    (hg : (ctx1.reference
            && (ctx1.decsOf.isEmpty || decide (ctx1.decsOf.length > 1))) = false)
    (hstop : (runSuiteLoop oracle ctx1.failfast ctx1.test_vectors ctx1.decsOf
                ctx1.suitesOf false).stop = some o) :
    run_test_suites fl oracle ctx
      = ⟨(runSuiteLoop oracle ctx1.failfast ctx1.test_vectors ctx1.decsOf
            ctx1.suitesOf false).trace, o,
         { ctx1 with
             test_suite :=
               (runSuiteLoop oracle ctx1.failfast ctx1.test_vectors ctx1.decsOf
                  ctx1.suitesOf false).last.or ctx1.test_suite }⟩ := by
  unfold run_test_suites
  rw [hn]
  dsimp only
  rw [if_neg (by simp [hg]), hstop]

theorem run_test_suites_go_none {fl : Fluster}
    {oracle : TestSuite → Decoder → Option SuiteRunResult} {ctx ctx1 : Context}
    (hn : normalize_context fl ctx = .ok ctx1)
    (hg : (ctx1.reference
            && (ctx1.decsOf.isEmpty || decide (ctx1.decsOf.length > 1))) = false)
    (hstop : (runSuiteLoop oracle ctx1.failfast ctx1.test_vectors ctx1.decsOf
                ctx1.suitesOf false).stop = none) :
    run_test_suites fl oracle ctx
      = ⟨(runSuiteLoop oracle ctx1.failfast ctx1.test_vectors ctx1.decsOf
            ctx1.suitesOf false).trace,
         if (runSuiteLoop oracle ctx1.failfast ctx1.test_vectors ctx1.decsOf
               ctx1.suitesOf false).err then .exited 1 else .finished,
         { ctx1 with
             test_suite :=
               (runSuiteLoop oracle ctx1.failfast ctx1.test_vectors ctx1.decsOf
                  ctx1.suitesOf false).last.or ctx1.test_suite }⟩ := by
  unfold run_test_suites
  rw [hn]
  dsimp only
  rw [if_neg (by simp [hg]), hstop]

/-! ## The claims -/

/-- Claim C1: for every run invocation with a non-empty name filter (for
test suites, decoders, or test vectors) that matches no
catalogue/registry entry by exact case-insensitive name equality, the
run fails with an error naming the requested filter before any decoder
is invoked (the execution trace is empty); with no filter, everything
is selected.  The vector-filter leg goes through the spec-modelled
`suiteRunM` (test_suite.py is absent from src/). -/
theorem run_filter_no_match :
    (∀ (fl : Fluster) (oracle : TestSuite → Decoder → Option SuiteRunResult)
       (ctx : Context) (ts : List String) (dcn : Option (List String)),
       ctx.test_suites = .names (some ts) → ctx.decoders = .names dcn → ts ≠ [] →
       (∀ s ∈ fl.test_suites, (ts.map strToLower).contains (strToLower s.name) = false) →
       (run_test_suites fl oracle ctx).outcome
           = .raised (.noMatch "test suite" (ts.map strToLower))
         ∧ (run_test_suites fl oracle ctx).executed = [])
    ∧ (∀ (fl : Fluster) (oracle : TestSuite → Decoder → Option SuiteRunResult)
        (ctx : Context) (tsn : Option (List String)) (dcl : List String)
        (rs : List TestSuite),
        ctx.test_suites = .names tsn → ctx.decoders = .names (some dcl) → dcl ≠ [] →
        get_run_param (optLower tsn) fl.test_suites TestSuite.name "test suite" = .ok rs →
        (∀ d ∈ fl.decoders, (dcl.map strToLower).contains (strToLower d.name) = false) →
        (run_test_suites fl oracle ctx).outcome
            = .raised (.noMatch "decoders" (dcl.map strToLower))
          ∧ (run_test_suites fl oracle ctx).executed = [])
    ∧ (∀ (fl : Fluster) (oracle : TestSuite → Decoder → Option SuiteRunResult)
        (ctx ctx1 : Context) (vs : List String),
        normalize_context fl ctx = .ok ctx1 →
        (ctx1.reference
          && (ctx1.decsOf.isEmpty || decide (ctx1.decsOf.length > 1))) = false →
        ctx.test_vectors = some vs → vs ≠ [] →
        (∀ s ∈ ctx1.suitesOf, ∀ v ∈ s.test_vectors,
           (vs.map strToLower).contains (strToLower v.name) = false) →
        (∃ s ∈ ctx1.suitesOf, ∃ d ∈ ctx1.decsOf, d.codec = s.codec) →
        (run_test_suites fl oracle ctx).outcome
            = .raised (.noMatch "test vectors" (vs.map strToLower))
          ∧ (run_test_suites fl oracle ctx).executed = [])
    ∧ (∀ (fl : Fluster) (ctx : Context) (tsn dcn : Option (List String)),
        ctx.test_suites = .names tsn → ctx.decoders = .names dcn →
        optTruthy tsn = false → optTruthy dcn = false →
        ∃ ctx1, normalize_context fl ctx = .ok ctx1
          ∧ ctx1.test_suites = .objs fl.test_suites
          ∧ ctx1.decoders = .objs fl.decoders) := by
  refine ⟨?_, ?_, ?_, ?_⟩
  · intro fl oracle ctx ts dcn hts hdc hne hnm
    have hmap : ts.map strToLower ≠ [] := by simpa using hne
    have herr : get_run_param (optLower (some ts)) fl.test_suites TestSuite.name
        "test suite" = .error (.noMatch "test suite" (ts.map strToLower)) := by
      rw [optLower_some]
      exact get_run_param_no_match hmap hnm
    rw [run_test_suites_error (normalize_context_error_suites hts hdc herr)]
    exact ⟨rfl, rfl⟩
  · intro fl oracle ctx tsn dcl rs hts hdc hne hok hnm
    have hmap : dcl.map strToLower ≠ [] := by simpa using hne
    have herr : get_run_param (optLower (some dcl)) fl.decoders Decoder.name
        "decoders" = .error (.noMatch "decoders" (dcl.map strToLower)) := by
      rw [optLower_some]
      exact get_run_param_no_match hmap hnm
    rw [run_test_suites_error (normalize_context_error_decoders hts hdc hok herr)]
    exact ⟨rfl, rfl⟩
  · intro fl oracle ctx ctx1 vs hn hg hctv hvne hnm hex
    obtain ⟨tsn, dcn, rs, rd, hts, hdc, hok1, hok2, hctx⟩ := normalize_context_ok hn
    have htv : ctx1.test_vectors = some (vs.map strToLower) := by
      rw [hctx]
      dsimp only
      rw [hctv, optLower_some]
    have hvne' : vs.map strToLower ≠ [] := by simpa using hvne
    have hall : ∀ s ∈ ctx1.suitesOf, vfilterEmpty s ctx1.test_vectors = true := by
      intro s hs
      rw [htv]
      exact vfilterEmpty_of_no_match hvne' (fun v hv => hnm s hs v hv)
    obtain ⟨htr, hst⟩ := runSuiteLoop_vfilter oracle ctx1.failfast
      ctx1.test_vectors ctx1.decsOf ctx1.suitesOf false hall hex
    rw [run_test_suites_go_stop hn hg hst]
    refine ⟨?_, htr⟩
    rw [htv]
    rfl
  · intro fl ctx tsn dcn hts hdc ht1 ht2
    have h1 : get_run_param (optLower tsn) fl.test_suites TestSuite.name "test suite"
        = .ok fl.test_suites :=
      get_run_param_falsy (by rw [optTruthy_optLower]; exact ht1)
    have h2 : get_run_param (optLower dcn) fl.decoders Decoder.name "decoders"
        = .ok fl.decoders :=
      get_run_param_falsy (by rw [optTruthy_optLower]; exact ht2)
    exact ⟨_, normalize_context_ok_of hts hdc h1 h2, rfl, rfl⟩

/-- Concrete instantiation of `run_filter_no_match` on the two-suite,
two-decoder fixture: an unmatched suite filter, an unmatched decoder
filter and an unmatched vector filter each abort with the error naming
the (lowercased) filter and an empty execution trace, and the
filterless context selects the whole catalogue and registry. -/
theorem run_filter_no_match_witness :
    ((run_test_suites fl0 oracleAllPass
        { ctx0 with test_suites := .names (some ["NoSuch"]) }).outcome
          = .raised (.noMatch "test suite" (["NoSuch"].map strToLower))
      ∧ (run_test_suites fl0 oracleAllPass
          { ctx0 with test_suites := .names (some ["NoSuch"]) }).executed = [])
    ∧ ((run_test_suites fl0 oracleAllPass
        { ctx0 with decoders := .names (some ["NoDec"]) }).outcome
          = .raised (.noMatch "decoders" (["NoDec"].map strToLower))
      ∧ (run_test_suites fl0 oracleAllPass
          { ctx0 with decoders := .names (some ["NoDec"]) }).executed = [])
    ∧ ((run_test_suites fl0 oracleAllPass
        { ctx0 with test_vectors := some ["NoVec"] }).outcome
          = .raised (.noMatch "test vectors" (["NoVec"].map strToLower))
      ∧ (run_test_suites fl0 oracleAllPass
          { ctx0 with test_vectors := some ["NoVec"] }).executed = [])
    ∧ (∃ ctx1, normalize_context fl0 ctx0 = .ok ctx1
        ∧ ctx1.test_suites = .objs fl0.test_suites
        ∧ ctx1.decoders = .objs fl0.decoders) := by
  refine ⟨?_, ?_, ?_, ?_⟩
  · exact run_filter_no_match.1 fl0 oracleAllPass _ ["NoSuch"] none rfl rfl
      (by decide) (by decide)
  · exact run_filter_no_match.2.1 fl0 oracleAllPass _ none ["NoDec"] fl0.test_suites
      rfl rfl (by decide) rfl (by decide)
  · exact run_filter_no_match.2.2.1 fl0 oracleAllPass _
      { ({ ctx0 with test_vectors := some ["NoVec"] } : Context) with
          test_suites := .objs fl0.test_suites
          decoders := .objs fl0.decoders
          test_vectors := some ["novec"] }
      ["NoVec"] rfl (by decide) rfl (by decide) (by decide) (by decide)
  · exact run_filter_no_match.2.2.2 fl0 ctx0 none none rfl rfl rfl rfl

/-- Claim C2: with reference mode requested, if the number of decoders
remaining selected after filtering is not exactly one, a configuration
error listing the names of all selected decoders is raised before any
(decoder, suite) execution starts (the trace is empty); with exactly
one decoder selected, the reference-mode resolution succeeds (no such
error is raised). -/
theorem reference_mode_single_decoder
    (fl : Fluster) (oracle : TestSuite → Decoder → Option SuiteRunResult)
    (ctx ctx1 : Context) (decs : List Decoder)
    (href : ctx.reference = true)
    (hn : normalize_context fl ctx = .ok ctx1)
    (hd : ctx1.decoders = .objs decs) :
    (decs.length ≠ 1 →
      (run_test_suites fl oracle ctx).outcome
          = .raised (.refDecoders (decs.map Decoder.name))
        ∧ (run_test_suites fl oracle ctx).executed = [])
    ∧ (decs.length = 1 → (run_test_suites fl oracle ctx).outcome.isRefError = false)
    ∧ (FlusterError.refDecoders (decs.map Decoder.name)).message
        = "Only one decoder can be the reference. Given: "
          ++ strIntercalate ", " (decs.map Decoder.name) := by
  have href1 : ctx1.reference = true := by
    rw [(normalize_preserves hn).2.2.2.2.1, href]
  have hdof : ctx1.decsOf = decs := by simp [Context.decsOf, hd]
  refine ⟨?_, ?_, rfl⟩
  · intro hne
    have hg : (ctx1.reference
        && (ctx1.decsOf.isEmpty || decide (ctx1.decsOf.length > 1))) = true := by
      rw [href1, hdof]
      rcases decs with _ | ⟨d, ds⟩
      · rfl
      · rcases ds with _ | ⟨d', ds⟩
        · exact absurd rfl hne
        · simp
    rw [run_test_suites_ref hn hg, hdof]
    exact ⟨rfl, rfl⟩
  · intro hone
    have hg : (ctx1.reference
        && (ctx1.decsOf.isEmpty || decide (ctx1.decsOf.length > 1))) = false := by
      rw [hdof]
      rcases decs with _ | ⟨d, ds⟩
      · simp at hone
      · rcases ds with _ | ⟨d', ds⟩
        · simp
        · simp at hone
    rcases hstop : (runSuiteLoop oracle ctx1.failfast ctx1.test_vectors ctx1.decsOf
        ctx1.suitesOf false).stop with _ | o
    · rw [run_test_suites_go_none hn hg hstop]
      rcases (runSuiteLoop oracle ctx1.failfast ctx1.test_vectors ctx1.decsOf
          ctx1.suitesOf false).err with _ | _ <;> rfl
    · rw [run_test_suites_go_stop hn hg hstop]
      exact runSuiteLoop_stop_not_ref hstop

/-- Concrete instantiation of `reference_mode_single_decoder`: with both
registry decoders selected, reference mode aborts naming `DecA, DecB`
with an empty trace; with the filter narrowing the selection to one
decoder, the run proceeds without the reference error. -/
theorem reference_mode_single_decoder_witness :
    ((run_test_suites fl0 oracleAllPass { ctx0 with reference := true }).outcome
        = .raised (.refDecoders ([decA, decB].map Decoder.name))
      ∧ (run_test_suites fl0 oracleAllPass { ctx0 with reference := true }).executed = [])
    ∧ (run_test_suites fl0 oracleAllPass
        { ctx0 with reference := true,
                    decoders := .names (some ["deca"]) }).outcome.isRefError = false := by
  constructor
  · exact (reference_mode_single_decoder fl0 oracleAllPass
      { ctx0 with reference := true }
      { ({ ctx0 with reference := true } : Context) with
          test_suites := .objs fl0.test_suites
          decoders := .objs [decA, decB]
          test_vectors := none }
      [decA, decB] rfl (by rfl) rfl).1 (by decide)
  · exact (reference_mode_single_decoder fl0 oracleAllPass
      { ctx0 with reference := true, decoders := .names (some ["deca"]) }
      { ({ ctx0 with reference := true, decoders := .names (some ["deca"]) } : Context) with
          test_suites := .objs fl0.test_suites
          decoders := .objs [decA]
          test_vectors := none }
      [decA] rfl (by rfl) rfl).2.1 rfl

/-- Claim C3: with failfast set, as soon as some (decoder, suite)
execution yields a vector with errors the process terminates
immediately with `sys.exit(1)`, and no later (decoder, suite) pair is
executed: the failing pair is the last entry of the execution trace and
every earlier executed pair was failure-free. -/
theorem failfast_stops_run (fl : Fluster)
    (oracle : TestSuite → Decoder → Option SuiteRunResult) (ctx : Context)
    (hff : ctx.failfast = true)
    (hfail : ∃ p ∈ (run_test_suites fl oracle ctx).executed, pairFails oracle p = true) :
    (run_test_suites fl oracle ctx).outcome = .exited 1
    ∧ ∃ pre fp, (run_test_suites fl oracle ctx).executed = pre ++ [fp]
        ∧ pairFails oracle fp = true
        ∧ ∀ p ∈ pre, pairFails oracle p = false := by
  rcases hn : normalize_context fl ctx with e | ctx1
  · rw [run_test_suites_error hn] at hfail
    simp at hfail
  · have hff1 : ctx1.failfast = true := by
      rw [(normalize_preserves hn).2.2.1, hff]
    by_cases hg : (ctx1.reference
        && (ctx1.decsOf.isEmpty || decide (ctx1.decsOf.length > 1))) = true
    · rw [run_test_suites_ref hn hg] at hfail
      simp at hfail
    · have hg' : (ctx1.reference
          && (ctx1.decsOf.isEmpty || decide (ctx1.decsOf.length > 1))) = false := by
        simpa using hg
      have heq : runSuiteLoop oracle ctx1.failfast ctx1.test_vectors ctx1.decsOf
          ctx1.suitesOf false
          = runSuiteLoop oracle true ctx1.test_vectors ctx1.decsOf
              ctx1.suitesOf false := by rw [hff1]
      have hchar := runSuiteLoop_ff_true_char oracle ctx1.test_vectors
        ctx1.decsOf ctx1.suitesOf false
      rcases hstop : (runSuiteLoop oracle true ctx1.test_vectors ctx1.decsOf
          ctx1.suitesOf false).stop with _ | o
      · have hrun := run_test_suites_go_none hn hg' (by rw [heq]; exact hstop)
        rw [hrun] at hfail
        rcases hchar with ⟨htr, _⟩ | ⟨hst, _⟩
        · obtain ⟨p, hp, hpf⟩ := hfail
          dsimp only at hp
          rw [heq] at hp
          rw [htr p hp] at hpf
          exact absurd hpf (by simp)
        · rw [hstop] at hst
          exact absurd hst (by simp)
      · rcases hchar with ⟨htr, hstne⟩ | ⟨hst, pre, fp, htr, hfp, hpre⟩
        · have hrun := run_test_suites_go_stop hn hg' (by rw [heq]; exact hstop)
          rw [hrun] at hfail
          obtain ⟨p, hp, hpf⟩ := hfail
          dsimp only at hp
          rw [heq] at hp
          rw [htr p hp] at hpf
          exact absurd hpf (by simp)
        · have ho : o = .exited 1 := by
            rw [hstop] at hst
            injection hst with h
          have hrun := run_test_suites_go_stop hn hg' (by rw [heq]; exact hstop)
          rw [hrun]
          subst ho
          refine ⟨rfl, pre, fp, ?_, hfp, hpre⟩
          dsimp only
          rw [heq]
          exact htr

/-- Concrete instantiation of `failfast_stops_run`: with failfast on and
an oracle failing `SuiteA`'s first vector, the executed trace is cut at
the failing (SuiteA, DecA) pair, the run exits with status 1 and the
VP8 suite's decoder is never invoked. -/
theorem failfast_stops_run_witness :
    (∃ p ∈ (run_test_suites fl0 oracleFailA { ctx0 with failfast := true }).executed,
        pairFails oracleFailA p = true)
    ∧ ((run_test_suites fl0 oracleFailA { ctx0 with failfast := true }).outcome
          = .exited 1
      ∧ ∃ pre fp,
          (run_test_suites fl0 oracleFailA
              { ctx0 with failfast := true }).executed = pre ++ [fp]
          ∧ pairFails oracleFailA fp = true
          ∧ ∀ p ∈ pre, pairFails oracleFailA p = false) :=
  ⟨⟨(suiteA, decA), by decide, by decide⟩,
    failfast_stops_run fl0 oracleFailA { ctx0 with failfast := true } rfl
      ⟨(suiteA, decA), by decide, by decide⟩⟩

/-- Claim C4: with failfast off, once resolution succeeds and no
exception interrupts the loop, every selected (decoder, suite) pair
with matching codec is executed (the trace is exactly the matching
pairs in loop order), and the process exits with status 1 exactly when
some executed pair produced a vector with errors — otherwise the run
returns normally. -/
theorem no_failfast_runs_all (fl : Fluster)
    (oracle : TestSuite → Decoder → Option SuiteRunResult) (ctx ctx1 : Context)
    (suites : List TestSuite) (decs : List Decoder)
    (hff : ctx.failfast = false)
    (hn : normalize_context fl ctx = .ok ctx1)
    (hs : ctx1.test_suites = .objs suites)
    (hd : ctx1.decoders = .objs decs)
    (hnr : (run_test_suites fl oracle ctx).outcome.isRaised = false) :
    (run_test_suites fl oracle ctx).executed = matchingPairs suites decs
    ∧ (run_test_suites fl oracle ctx).outcome
        = (if (matchingPairs suites decs).any (pairFails oracle)
           then .exited 1 else .finished) := by
  have hff1 : ctx1.failfast = false := by
    rw [(normalize_preserves hn).2.2.1, hff]
  have hsof : ctx1.suitesOf = suites := by simp [Context.suitesOf, hs]
  have hdof : ctx1.decsOf = decs := by simp [Context.decsOf, hd]
  by_cases hg : (ctx1.reference
      && (ctx1.decsOf.isEmpty || decide (ctx1.decsOf.length > 1))) = true
  · rw [run_test_suites_ref hn hg] at hnr
    simp [RunOutcome.isRaised] at hnr
  · have hg' : (ctx1.reference
        && (ctx1.decsOf.isEmpty || decide (ctx1.decsOf.length > 1))) = false := by
      simpa using hg
    have heq : runSuiteLoop oracle ctx1.failfast ctx1.test_vectors ctx1.decsOf
        ctx1.suitesOf false
        = runSuiteLoop oracle false ctx1.test_vectors decs suites false := by
      rw [hff1, hsof, hdof]
    have hchar := runSuiteLoop_ff_false_char oracle ctx1.test_vectors
      decs suites false
    rcases hchar with ⟨e, hst⟩ | ⟨hst, htr, herr⟩
    · have hrun := run_test_suites_go_stop hn hg' (by rw [heq]; exact hst)
      rw [hrun] at hnr
      simp [RunOutcome.isRaised] at hnr
    · have hrun := run_test_suites_go_none hn hg' (by rw [heq]; exact hst)
      rw [hrun]
      constructor
      · dsimp only
        rw [heq]
        exact htr
      · dsimp only
        rw [heq, herr, htr, Bool.false_or]

/-- Concrete instantiation of `no_failfast_runs_all`: with failfast off
and `SuiteA` failing, both codec-matching pairs are still executed and
the run exits with status 1 at the end. -/
theorem no_failfast_runs_all_witness :
    (run_test_suites fl0 oracleFailA ctx0).outcome.isRaised = false
    ∧ ((run_test_suites fl0 oracleFailA ctx0).executed
          = matchingPairs [suiteA, suiteB] [decA, decB]
      ∧ (run_test_suites fl0 oracleFailA ctx0).outcome
          = (if (matchingPairs [suiteA, suiteB] [decA, decB]).any (pairFails oracleFailA)
             then .exited 1 else .finished)) :=
  ⟨by decide,
    no_failfast_runs_all fl0 oracleFailA ctx0
      { ctx0 with
          test_suites := .objs [suiteA, suiteB]
          decoders := .objs [decA, decB]
          test_vectors := none }
      [suiteA, suiteB] [decA, decB] rfl (by rfl) rfl rfl (by decide)⟩

theorem mem_matchingPairs {suites : List TestSuite} {decs : List Decoder}
    {s : TestSuite} {d : Decoder} :
    (s, d) ∈ matchingPairs suites decs ↔ s ∈ suites ∧ d ∈ decs ∧ d.codec = s.codec := by
  simp only [matchingPairs, List.mem_flatMap, List.mem_map, List.mem_filter]
  constructor
  · rintro ⟨s', hs', d', ⟨hd', hcd⟩, heq⟩
    obtain ⟨h1, h2⟩ := Prod.mk.injEq .. ▸ heq
    subst h1; subst h2
    exact ⟨hs', hd', by simpa using hcd⟩
  · rintro ⟨hs, hd, hcd⟩
    exact ⟨s, hs, d, ⟨hd, by simpa using hcd⟩, rfl⟩

/-- Claim C5: a (decoder, suite) pair is executed only if the decoder's
codec equals the suite's codec (every trace entry satisfies the guard,
unconditionally), and — when the loop is not cut short by failfast or a
raised exception — a selected pair is executed if and only if its
codecs match, so mismatched pairs produce no results and contribute
nothing to the error flag. -/
theorem codec_match_guards_execution :
    (∀ (fl : Fluster) (oracle : TestSuite → Decoder → Option SuiteRunResult)
       (ctx : Context) (p : TestSuite × Decoder),
       p ∈ (run_test_suites fl oracle ctx).executed → p.2.codec = p.1.codec)
    ∧ (∀ (fl : Fluster) (oracle : TestSuite → Decoder → Option SuiteRunResult)
        (ctx ctx1 : Context) (suites : List TestSuite) (decs : List Decoder),
        ctx.failfast = false →
        normalize_context fl ctx = .ok ctx1 →
        ctx1.test_suites = .objs suites →
        ctx1.decoders = .objs decs →
        (run_test_suites fl oracle ctx).outcome.isRaised = false →
        ∀ (s : TestSuite) (d : Decoder),
          (s, d) ∈ (run_test_suites fl oracle ctx).executed
            ↔ s ∈ suites ∧ d ∈ decs ∧ d.codec = s.codec) := by
  constructor
  · intro fl oracle ctx p hp
    rcases hn : normalize_context fl ctx with e | ctx1
    · rw [run_test_suites_error hn] at hp
      simp at hp
    · by_cases hg : (ctx1.reference
          && (ctx1.decsOf.isEmpty || decide (ctx1.decsOf.length > 1))) = true
      · rw [run_test_suites_ref hn hg] at hp
        simp at hp
      · have hg' : (ctx1.reference
            && (ctx1.decsOf.isEmpty || decide (ctx1.decsOf.length > 1))) = false := by
          simpa using hg
        rcases hstop : (runSuiteLoop oracle ctx1.failfast ctx1.test_vectors
            ctx1.decsOf ctx1.suitesOf false).stop with _ | o
        · rw [run_test_suites_go_none hn hg' hstop] at hp
          exact (runSuiteLoop_trace_mem hp).2.2
        · rw [run_test_suites_go_stop hn hg' hstop] at hp
          exact (runSuiteLoop_trace_mem hp).2.2
  · intro fl oracle ctx ctx1 suites decs hff hn hs hd hnr s d
    have hff1 : ctx1.failfast = false := by
      rw [(normalize_preserves hn).2.2.1, hff]
    have hsof : ctx1.suitesOf = suites := by simp [Context.suitesOf, hs]
    have hdof : ctx1.decsOf = decs := by simp [Context.decsOf, hd]
    by_cases hg : (ctx1.reference
        && (ctx1.decsOf.isEmpty || decide (ctx1.decsOf.length > 1))) = true
    · rw [run_test_suites_ref hn hg] at hnr
      simp [RunOutcome.isRaised] at hnr
    · have hg' : (ctx1.reference
          && (ctx1.decsOf.isEmpty || decide (ctx1.decsOf.length > 1))) = false := by
        simpa using hg
      have heq : runSuiteLoop oracle ctx1.failfast ctx1.test_vectors ctx1.decsOf
          ctx1.suitesOf false
          = runSuiteLoop oracle false ctx1.test_vectors decs suites false := by
        rw [hff1, hsof, hdof]
      have hchar := runSuiteLoop_ff_false_char oracle ctx1.test_vectors
        decs suites false
      rcases hchar with ⟨e, hst⟩ | ⟨hst, htr, _⟩
      · have hrun := run_test_suites_go_stop hn hg' (by rw [heq]; exact hst)
        rw [hrun] at hnr
        simp [RunOutcome.isRaised] at hnr
      · have hrun := run_test_suites_go_none hn hg' (by rw [heq]; exact hst)
        rw [hrun]
        dsimp only
        rw [heq, htr]
        exact mem_matchingPairs

/-- Concrete instantiation of `codec_match_guards_execution`: the
executed (SuiteA, DecA) pair satisfies the codec guard, and on the
clean run the membership of a pair in the trace coincides with the
codec-matching criterion (shown for SuiteA with the VP8 decoder DecB,
which is not executed). -/
theorem codec_match_guards_execution_witness :
    decA.codec = suiteA.codec
    ∧ ((suiteA, decB) ∈ (run_test_suites fl0 oracleAllPass ctx0).executed
        ↔ suiteA ∈ [suiteA, suiteB] ∧ decB ∈ [decA, decB]
          ∧ decB.codec = suiteA.codec) :=
  ⟨codec_match_guards_execution.1 fl0 oracleAllPass ctx0 (suiteA, decA) (by decide),
    codec_match_guards_execution.2 fl0 oracleAllPass ctx0
      { ctx0 with
          test_suites := .objs [suiteA, suiteB]
          decoders := .objs [decA, decB]
          test_vectors := none }
      [suiteA, suiteB] [decA, decB] rfl (by rfl) rfl rfl (by decide) suiteA decB⟩

/-- Claim C7 counterexample: the Run Context is not immutable-per-run.
On a clean, filterless run that returns normally, `run_test_suites` has
rewritten `ctx.test_suites` (name filter replaced by the resolved suite
objects) and has added the `test_suite` attribute (the `for` loop
target), so the context differs from the one passed in. -/
theorem context_not_immutable_counterexample :
    (run_test_suites fl0 oracleAllPass ctx0).outcome = .finished
    ∧ (run_test_suites fl0 oracleAllPass ctx0).finalCtx.test_suites ≠ ctx0.test_suites
    ∧ (run_test_suites fl0 oracleAllPass ctx0).finalCtx.test_suite ≠ ctx0.test_suite :=
  ⟨by decide, by decide, by decide⟩

/-- Claim C7 (amended): `run_test_suites` preserves the scalar
configuration fields of the context — jobs, timeout, failfast, quiet,
reference, summary and keep_files — while it rewrites `test_suites`,
`decoders` and `test_vectors` during normalization and adds the
`test_suite` loop attribute. -/
theorem context_scalar_fields_preserved (fl : Fluster)
    (oracle : TestSuite → Decoder → Option SuiteRunResult) (ctx : Context) :
    (run_test_suites fl oracle ctx).finalCtx.jobs = ctx.jobs
    ∧ (run_test_suites fl oracle ctx).finalCtx.timeout = ctx.timeout
    ∧ (run_test_suites fl oracle ctx).finalCtx.failfast = ctx.failfast
    ∧ (run_test_suites fl oracle ctx).finalCtx.quiet = ctx.quiet
    ∧ (run_test_suites fl oracle ctx).finalCtx.reference = ctx.reference
    ∧ (run_test_suites fl oracle ctx).finalCtx.summary = ctx.summary
    ∧ (run_test_suites fl oracle ctx).finalCtx.keep_files = ctx.keep_files := by
  rcases hn : normalize_context fl ctx with e | ctx1
  · rw [run_test_suites_error hn]
    exact ⟨rfl, rfl, rfl, rfl, rfl, rfl, rfl⟩
  · obtain ⟨hj, ht, hf, hq, hr, hsm, hk, _⟩ := normalize_preserves hn
    by_cases hg : (ctx1.reference
        && (ctx1.decsOf.isEmpty || decide (ctx1.decsOf.length > 1))) = true
    · rw [run_test_suites_ref hn hg]
      exact ⟨hj, ht, hf, hq, hr, hsm, hk⟩
    · have hg' : (ctx1.reference
          && (ctx1.decsOf.isEmpty || decide (ctx1.decsOf.length > 1))) = false := by
        simpa using hg
      rcases hstop : (runSuiteLoop oracle ctx1.failfast ctx1.test_vectors
          ctx1.decsOf ctx1.suitesOf false).stop with _ | o
      · rw [run_test_suites_go_none hn hg' hstop]
        exact ⟨hj, ht, hf, hq, hr, hsm, hk⟩
      · rw [run_test_suites_go_stop hn hg' hstop]
        exact ⟨hj, ht, hf, hq, hr, hsm, hk⟩

theorem strJoin_append (as bs : List String) :
    strJoin (as ++ bs) = strJoin as ++ strJoin bs := by
  induction as with
  | nil => simp [strJoin, String.empty_append]
  | cons a as ih => simp [strJoin, ih, String.append_assoc]

theorem strIntercalate_cons_join (sep x : String) (xs : List String) :
    strIntercalate sep (x :: xs) = x ++ strJoin (xs.map (fun y => sep ++ y)) := by
  induction xs generalizing x with
  | nil => simp [strIntercalate, strJoin, String.append_empty]
  | cons y ys ih =>
    rw [strIntercalate, ih, List.map_cons]
    simp [strJoin, String.append_assoc]

/-- Claim C6: for a suite's results across N decoders (N ≥ 1) the
summary is rendered as the newline-joined table whose lines are: a
header with one column per decoder, the separator, one row per vector of
the (first) result set with one pass/fail cell per decoder, and a totals
row showing for each decoder the count of successful vectors over the
total vector count; the table therefore has one line per vector plus
three. -/
theorem summary_table_shape (results : List (Decoder × SuiteRunResult))
    (h : results ≠ []) :
    generate_summary results = strIntercalate "\n" (summaryTableLines results)
    ∧ (summaryTableLines results).length
        = ((results.head?.map (fun r => r.2.test_vectors)).getD []).length + 3 := by
  constructor
  · rcases results with _ | ⟨r, rs⟩
    · exact absurd rfl h
    · have h1 : ("\n|" : String) = "\n" ++ "|" := rfl
      have h2 : ("\n|-|" : String) = "\n" ++ "|-|" := rfl
      have h3 : ("\n|TOTAL|" : String) = "\n" ++ "|TOTAL|" := rfl
      unfold generate_summary summaryTableLines summaryHeader summarySepLine
        summaryRow summaryTotalsLine
      dsimp only
      simp only [List.cons_append, strIntercalate_cons_join, List.map_cons,
        List.map_append, List.map_map, strJoin_append, strJoin, h1, h2, h3,
        String.append_assoc, String.append_empty, List.head?_cons,
        Option.map_some', Option.getD_some, Function.comp_def]
  · simp [summaryTableLines]

/-- The suite result used by the summary witness: decoder A passes all
three vectors. -/
def resPassAll : SuiteRunResult :=
  ⟨"S", [⟨"v1", []⟩, ⟨"v2", []⟩, ⟨"v3", []⟩]⟩

/-- The suite result used by the summary witness: decoder B fails
vector 2. -/
def resFailV2 : SuiteRunResult :=
  ⟨"S", [⟨"v1", []⟩, ⟨"v2", ["bad checksum"]⟩, ⟨"v3", []⟩]⟩

/-- The 2-decoder × 3-vector result set of the spec's summary example. -/
def summaryResultsEx : List (Decoder × SuiteRunResult) :=
  [(decA, resPassAll), (decB, resFailV2)]

/-- Concrete instantiation of `summary_table_shape` on the spec's
2-decoder × 3-vector example: the rendered table has 3 vector rows and a
totals row reading `3/3` for decoder A and `2/3` for decoder B. -/
theorem summary_table_shape_witness :
    summaryResultsEx ≠ []
    ∧ (generate_summary summaryResultsEx
          = strIntercalate "\n" (summaryTableLines summaryResultsEx)
      ∧ (summaryTableLines summaryResultsEx).length
          = ((summaryResultsEx.head?.map (fun r => r.2.test_vectors)).getD []).length + 3)
    ∧ summaryTotalsLine summaryResultsEx = "|TOTAL|3/3|2/3|"
    ∧ generate_summary summaryResultsEx
        = "|Test|DecA|DecB|\n|-|-|-|\n|v1|✔️|✔️|\n|v2|✔️|❌|\n|v3|✔️|✔️|\n|TOTAL|3/3|2/3|" :=
  ⟨by decide, summary_table_shape summaryResultsEx (by decide), by decide, by decide⟩

theorem scan_foldl (files : List ScanFile) :
    ∀ acc : List TestSuite × List String,
      files.foldl scanStep acc
        = (acc.1 ++ files.filterMap (fun f =>
             if isJsonFile f.name then f.parse.toOption else none),
           acc.2 ++ files.filterMap (fun f =>
             if isJsonFile f.name then
               match f.parse with
               | .error e => some ("Error loading test suite " ++ f.name ++ ": " ++ e)
               | .ok _ => none
             else none)) := by
  induction files with
  | nil => intro acc; simp
  | cons f fs ih =>
    intro acc
    rw [List.foldl_cons, ih]
    by_cases hj : isJsonFile f.name = true
    · rcases hp : f.parse with e | ts
      · simp [scanStep, hj, hp, List.filterMap_cons, Except.toOption]
      · simp [scanStep, hj, hp, List.filterMap_cons, Except.toOption]
    · have hj' : isJsonFile f.name = false := by simpa using hj
      simp [scanStep, hj', List.filterMap_cons]

/-- Claim C8: when loading the catalogue, every `.json` definition that
parses successfully is appended to the loaded suite list and every one
that fails to parse contributes exactly one reported error and is
skipped, with the scan continuing to the end; in particular a directory
with one well-formed and one malformed definition yields exactly one
loaded suite and one reported parse error. -/
theorem loader_skips_malformed :
    (∀ files : List ScanFile,
       (scan_test_suites files).1
         = files.filterMap (fun f =>
             if isJsonFile f.name then f.parse.toOption else none)
       ∧ (scan_test_suites files).2
         = files.filterMap (fun f =>
             if isJsonFile f.name then
               match f.parse with
               | .error e => some ("Error loading test suite " ++ f.name ++ ": " ++ e)
               | .ok _ => none
             else none))
    ∧ (∀ (g b : String) (ts : TestSuite) (e : String),
        isJsonFile g = true → isJsonFile b = true →
        scan_test_suites [⟨g, .ok ts⟩, ⟨b, .error e⟩]
          = ([ts], ["Error loading test suite " ++ b ++ ": " ++ e])) := by
  constructor
  · intro files
    unfold scan_test_suites
    rw [scan_foldl]
    simp
  · intro g b ts e hg hb
    unfold scan_test_suites
    simp [List.foldl, scanStep, hg, hb]

/-- Concrete instantiation of `loader_skips_malformed`: a directory
holding `good.json` (well-formed) and `bad.json` (malformed) loads
exactly the one good suite and reports exactly the one parse error. -/
theorem loader_skips_malformed_witness :
    (isJsonFile "good.json" = true ∧ isJsonFile "bad.json" = true)
    ∧ scan_test_suites
        [⟨"good.json", .ok suiteA⟩, ⟨"bad.json", .error "invalid JSON"⟩]
        = ([suiteA], ["Error loading test suite bad.json: invalid JSON"]) :=
  ⟨⟨by decide, by decide⟩,
    loader_skips_malformed.2 "good.json" "bad.json" suiteA "invalid JSON"
      (by decide) (by decide)⟩

/-- Claim C9: catalogue loading is memoized per instance — a second (or
any later) call to the suite loader leaves the in-memory suite
collection exactly as the first call left it and performs no second
scan of the definitions directory. -/
theorem load_test_suites_idempotent (files : List ScanFile) (fl : FlusterLoadState) :
    (load_test_suites files (load_test_suites files fl).1).1
        = (load_test_suites files fl).1
    ∧ (load_test_suites files (load_test_suites files fl).1).2 = false := by
  unfold load_test_suites
  rcases h : fl.suites_loaded <;> simp [h]

/-- Claim C10: `download_test_suites` selects suites by exact
case-sensitive name membership, and a non-empty filter matching no
loaded suite simply selects (and downloads) nothing, returning without
error — unlike the run path, whose resolver matches case-insensitively
and raises on an empty match: a name differing from a suite's only in
case is rejected by the download path yet accepted by the run path. -/
theorem download_filter_case_sensitive :
    (∀ (fl_suites : List TestSuite) (filt : List String) (t : TestSuite),
       filt ≠ [] →
       (t ∈ download_test_suites fl_suites filt
         ↔ t ∈ fl_suites ∧ filt.contains t.name = true))
    ∧ (∀ (fl_suites : List TestSuite) (filt : List String),
        filt ≠ [] → (∀ t ∈ fl_suites, filt.contains t.name = false) →
        download_test_suites fl_suites filt = [])
    ∧ (∀ (filt : List String) (cl : List TestSuite),
        filt ≠ [] →
        (∀ s ∈ cl, (filt.map strToLower).contains (strToLower s.name) = false) →
        get_run_param (optLower (some filt)) cl TestSuite.name "test suite"
          = .error (.noMatch "test suite" (filt.map strToLower)))
    ∧ (∀ (s : TestSuite) (f : String),
        strToLower f = strToLower s.name → f ≠ s.name →
        download_test_suites [s] [f] = []
        ∧ get_run_param (optLower (some [f])) [s] TestSuite.name "test suite"
            = .ok [s]) := by
  refine ⟨?_, ?_, ?_, ?_⟩
  · intro fl_suites filt t hne
    unfold download_test_suites
    rw [if_neg (by simp [List.isEmpty_iff, hne])]
    simp [List.mem_filter]
  · intro fl_suites filt hne hnm
    unfold download_test_suites
    rw [if_neg (by simp [List.isEmpty_iff, hne])]
    exact List.filter_eq_nil_iff.mpr (fun t ht => by simpa using hnm t ht)
  · intro filt cl hne hnm
    rw [optLower_some]
    exact get_run_param_no_match (by simpa using hne) hnm
  · intro s f hlow hne
    constructor
    · unfold download_test_suites
      rw [if_neg (by simp)]
      refine List.filter_eq_nil_iff.mpr ?_
      intro t ht
      rcases List.mem_singleton.mp ht with rfl
      simp [hne]
      exact fun h => hne h.symm
    · rw [optLower_some]
      unfold get_run_param
      rw [if_pos (by simp [optTruthy])]
      have hrun : [s].filter
          (fun x => ([f].map strToLower).contains (strToLower (TestSuite.name x)))
          = [s] := by
        refine List.filter_eq_self.mpr ?_
        intro t ht
        rcases List.mem_singleton.mp ht with rfl
        simp [hlow]
      simp only [Option.getD_some, hrun]
      rfl

/-- Concrete instantiation of `download_filter_case_sensitive`: the
filter `"suitea"` downloads nothing (it differs from `SuiteA` in case)
while the run path's resolver accepts it; the filter `"zzz"` makes the
run path raise while the download path stays silent. -/
theorem download_filter_case_sensitive_witness :
    (suiteA ∈ download_test_suites [suiteA, suiteB] ["SuiteA"]
      ↔ suiteA ∈ [suiteA, suiteB] ∧ (["SuiteA"].contains suiteA.name) = true)
    ∧ download_test_suites [suiteA] ["suitea"] = []
    ∧ get_run_param (optLower (some ["suitea"])) [suiteA] TestSuite.name "test suite"
        = .ok [suiteA]
    ∧ get_run_param (optLower (some ["zzz"])) [suiteA, suiteB] TestSuite.name
        "test suite" = .error (.noMatch "test suite" (["zzz"].map strToLower)) :=
  ⟨download_filter_case_sensitive.1 [suiteA, suiteB] ["SuiteA"] suiteA (by decide),
    (download_filter_case_sensitive.2.2.2 suiteA "suitea" (by decide) (by decide)).1,
    (download_filter_case_sensitive.2.2.2 suiteA "suitea" (by decide) (by decide)).2,
    download_filter_case_sensitive.2.2.1 ["zzz"] [suiteA, suiteB] (by decide)
      (by decide)⟩

end Fluster
